import Mathlib

/-!
# Meeting scheduler: the recommendation aggregator

A shallow embedding of `internal/models/models.go`, of
`PostgresRepository.GetTimeSlotRecommendations` (`internal/repository/postgres.go`) and of
the handlers of `internal/api/handlers.go`, with the properties of the aggregation and of
the handlers proved over it.

Modelling conventions
* Go `uint` identifiers are `Nat`; they are only compared and passed on, never computed with.
* Go `int` counters are `Int`.  A counter is incremented once per element of a slice, and the
  length of a Go slice is itself an `int`, so the increments cannot wrap.
* `time.Time` is a `GoTime`: the seconds on the time's own clock since the beginning of the
  year 1 and the offset of its zone (the zero `time.Time` is 0).  `gorm.DeletedAt`, which is
  never written to JSON, is an `Option Int`.
* A Go `string` is a `GoString`, which keeps the bytes that are not valid UTF-8 apart from
  the characters.
* A Go slice that is built with `append` is a `Slice`, which keeps the nil slice apart from an
  empty non-nil one.  A slice that is only ranged over is a `List`.
* A Go `(value, error)` result is a pair whose second component is `Option GoError`
  (`none` is the nil error).
* gorm and PostgreSQL are not part of the repository.  What a `SELECT` answers is a parameter
  (`Engine`): a deterministic function of the stored tables that gives rows or an error.
-/

set_option autoImplicit false

namespace Scheduler

/-! ## Go values -/

/-- Go `error` value, identified by its message. -/
structure GoError where
  message : String
  deriving DecidableEq, Repr

/-- The error `gorm.ErrRecordNotFound`. -/
def ErrRecordNotFound : GoError := ⟨"record not found"⟩

/-- Go slice built by `append`: `nil` is the nil slice, `mk xs` a non-nil slice with
elements `xs`. -/
inductive Slice (α : Type) where
  | nil : Slice α
  | mk (elems : List α) : Slice α
  deriving DecidableEq, Repr

namespace Slice

variable {α : Type}

/-- Elements of a slice, in order. -/
def toList : Slice α → List α
  | nil => []
  | mk xs => xs

/-- Go `len(s)`. -/
def len (s : Slice α) : Int := (s.toList.length : Int)

/-- Go `append(s, x)`: the result is never nil. -/
def append (s : Slice α) (x : α) : Slice α := mk (s.toList ++ [x])

/-- Go `s == nil`. -/
def isNil : Slice α → Bool
  | nil => true
  | mk _ => false

/-- The slice obtained from the nil slice by appending the elements of `xs` one by one. -/
def ofAppends (xs : List α) : Slice α :=
  xs.foldl append nil

end Slice

/-- One piece of a Go string: a character in valid UTF-8, or a byte that belongs to no valid
encoding of a character. -/
inductive GoRune where
  | char (c : Char) : GoRune
  | invalid (byte : Nat) : GoRune
  deriving DecidableEq, Repr

/-- A Go `string`: a sequence of bytes, read as characters wherever the bytes are valid
UTF-8. -/
structure GoString where
  runes : List GoRune
  deriving DecidableEq, Repr

namespace GoString

/-- The Go string with the UTF-8 bytes of a text. -/
def ofText (s : String) : GoString :=
  ⟨s.toList.map GoRune.char⟩

/-- The text `encoding/json` writes for a Go string: every byte that is not valid UTF-8
becomes the replacement character U+FFFD. -/
def toText (s : GoString) : String :=
  String.mk (s.runes.map fun r =>
    match r with
    | GoRune.char c => c
    | GoRune.invalid _ => Char.ofNat 65533)

/-- Whether a Go string is valid UTF-8 (`utf8.ValidString`). -/
def valid (s : GoString) : Bool :=
  s.runes.all fun r =>
    match r with
    | GoRune.char _ => true
    | GoRune.invalid _ => false

end GoString

instance : Coe String GoString := ⟨GoString.ofText⟩

/-- A `time.Time`, as far as the program tells times apart: `wall` is the number of seconds
on the clock of the time's own zone since the beginning of the year 1, `offset` the offset
of that zone in seconds east of UTC. -/
structure GoTime where
  wall : Int
  offset : Int
  deriving DecidableEq, Repr

instance (n : Nat) : OfNat GoTime n := ⟨⟨n, 0⟩⟩

/-! ## `internal/models/models.go` -/

/-- The struct `models.TimeSlot`. -/
structure TimeSlot where
  ID : Nat
  EventID : Nat
  StartTime : GoTime
  EndTime : GoTime
  CreatedAt : GoTime
  UpdatedAt : GoTime
  DeletedAt : Option Int
  deriving DecidableEq, Repr

/-- The struct `models.Event`. -/
structure Event where
  ID : Nat
  Title : GoString
  Description : GoString
  OrganizerId : Nat
  Duration : Int
  CreatedAt : GoTime
  UpdatedAt : GoTime
  DeletedAt : Option Int
  TimeSlots : Slice TimeSlot
  deriving DecidableEq, Repr

/-- The struct `models.Participant`. -/
structure Participant where
  ID : Nat
  Name : GoString
  Email : GoString
  CreatedAt : GoTime
  UpdatedAt : GoTime
  DeletedAt : Option Int
  deriving DecidableEq, Repr

/-- The struct `models.Availability`. -/
structure Availability where
  ID : Nat
  ParticipantID : Nat
  TimeSlotID : Nat
  IsAvailable : Bool
  CreatedAt : GoTime
  UpdatedAt : GoTime
  DeletedAt : Option Int
  deriving DecidableEq, Repr

/-- The struct `models.TimeSlotRecommendation`. -/
structure TimeSlotRecommendation where
  TimeSlot : TimeSlot
  AvailableCount : Int
  UnavailableCount : Int
  AvailableUsers : Slice Participant
  UnavailableUsers : Slice Participant
  deriving DecidableEq, Repr

/-- Zero value of `models.TimeSlot`. -/
def TimeSlot.zero : TimeSlot := ⟨0, 0, 0, 0, 0, 0, none⟩

/-- Zero value of `models.TimeSlotRecommendation` (`var recommendation models.TimeSlotRecommendation`). -/
def TimeSlotRecommendation.zero : TimeSlotRecommendation :=
  ⟨TimeSlot.zero, 0, 0, Slice.nil, Slice.nil⟩

/-! ## Storage -/

/-- The stored tables. -/
structure Store where
  events : List Event
  timeSlots : List TimeSlot
  participants : List Participant
  availabilities : List Availability
  deriving DecidableEq, Repr

/-- The statements `GetTimeSlotRecommendations` sends to the database. -/
inductive Query where
  /-- The statement `db.Where("event_id = ?", eventID).Find(&timeSlots)` of line 109. -/
  | timeSlots (eventID : Nat)
  /-- The statement `db.Where("time_slot_id = ?", slot.ID).Find(&availabilities)` of line 119. -/
  | availabilities (slotID : Nat)
  /-- The statement `db.First(&participant, availability.ParticipantID)` of lines 128 and 135. -/
  | participant (id : Nat)
  deriving DecidableEq, Repr

/-- What the database answers to each statement, as a deterministic function of the tables:
the rows in retrieval order, or an error. -/
structure Engine where
  findTimeSlots : Store → Nat → Except GoError (List TimeSlot)
  findAvailabilities : Store → Nat → Except GoError (List Availability)
  firstParticipant : Store → Nat → Except GoError Participant

/-- The handle `r.db`: the database it talks to, the tables as they are now, and the
statements issued through it so far. -/
structure DB where
  engine : Engine
  store : Store
  log : List Query

namespace DB

/-- Answer of the slot query for `eventID` on the current tables. -/
def slotsOf (db : DB) (eventID : Nat) : Except GoError (List TimeSlot) :=
  db.engine.findTimeSlots db.store eventID

/-- Answer of the availability query for `slotID` on the current tables. -/
def rowsOf (db : DB) (slotID : Nat) : Except GoError (List Availability) :=
  db.engine.findAvailabilities db.store slotID

/-- Answer of the participant lookup for `id` on the current tables. -/
def participantOf (db : DB) (id : Nat) : Except GoError Participant :=
  db.engine.firstParticipant db.store id

/-- The handle after one more statement has been issued.  A `SELECT` leaves the tables as
they are. -/
def issued (db : DB) (q : Query) : DB :=
  { db with log := db.log ++ [q] }

/-- The call `r.db.Where("event_id = ?", eventID).Find(&timeSlots)`. -/
def FindTimeSlots (db : DB) (eventID : Nat) : Except GoError (List TimeSlot) × DB :=
  (db.slotsOf eventID, db.issued (Query.timeSlots eventID))

/-- The call `r.db.Where("time_slot_id = ?", slotID).Find(&availabilities)`. -/
def FindAvailabilities (db : DB) (slotID : Nat) : Except GoError (List Availability) × DB :=
  (db.rowsOf slotID, db.issued (Query.availabilities slotID))

/-- The call `r.db.First(&participant, id)` into a fresh `participant`. -/
def FirstParticipant (db : DB) (id : Nat) : Except GoError Participant × DB :=
  (db.participantOf id, db.issued (Query.participant id))

end DB

/-! ## `GetTimeSlotRecommendations` -/

/-- The loop `for _, availability := range availabilities` (lines 124-140), started with
`recommendation` as it is before the loop.  An error is the `return nil, err` of line 129
or 136. -/
def countLoop : List Availability → TimeSlotRecommendation → DB →
    Except GoError TimeSlotRecommendation × DB
  | [], recommendation, db => (.ok recommendation, db)
  | availability :: rest, recommendation, db =>
    if availability.IsAvailable then
      let recommendation :=
        { recommendation with AvailableCount := recommendation.AvailableCount + 1 }
      match db.FirstParticipant availability.ParticipantID with
      | (.error err, db) => (.error err, db)
      | (.ok participant, db) =>
        countLoop rest
          { recommendation with
            AvailableUsers := recommendation.AvailableUsers.append participant } db
    else
      let recommendation :=
        { recommendation with UnavailableCount := recommendation.UnavailableCount + 1 }
      match db.FirstParticipant availability.ParticipantID with
      | (.error err, db) => (.error err, db)
      | (.ok participant, db) =>
        countLoop rest
          { recommendation with
            UnavailableUsers := recommendation.UnavailableUsers.append participant } db

/-- The loop `for _, slot := range timeSlots` (lines 113-143), started with
`recommendations` as it is before the loop, followed by the `return` of line 145. -/
def slotLoop : List TimeSlot → Slice TimeSlotRecommendation → DB →
    (Slice TimeSlotRecommendation × Option GoError) × DB
  | [], recommendations, db => ((recommendations, none), db)
  | slot :: rest, recommendations, db =>
    let recommendation := { TimeSlotRecommendation.zero with TimeSlot := slot }
    match db.FindAvailabilities slot.ID with
    | (.error err, db) => ((Slice.nil, some err), db)
    | (.ok availabilities, db) =>
      match countLoop availabilities recommendation db with
      | (.error err, db) => ((Slice.nil, some err), db)
      | (.ok recommendation, db) =>
        slotLoop rest (recommendations.append recommendation) db

/-- The method `PostgresRepository.GetTimeSlotRecommendations` (lines 104-146): the returned
pair and the handle afterwards. -/
def GetTimeSlotRecommendations (db : DB) (eventID : Nat) :
    (Slice TimeSlotRecommendation × Option GoError) × DB :=
  match db.FindTimeSlots eventID with
  | (.error err, db) => ((Slice.nil, some err), db)
  | (.ok timeSlots, db) => slotLoop timeSlots Slice.nil db

/-! ## Notions used to state the properties -/

namespace DB

/-- The error a statement is answered with on the current tables, `none` when it is
answered with rows. -/
def failure (db : DB) : Query → Option GoError
  | Query.timeSlots eventID =>
    match db.slotsOf eventID with
    | .error err => some err
    | .ok _ => none
  | Query.availabilities slotID =>
    match db.rowsOf slotID with
    | .error err => some err
    | .ok _ => none
  | Query.participant id =>
    match db.participantOf id with
    | .error err => some err
    | .ok _ => none

/-- The time slots retrieved for `eventID` (none when the slot query fails). -/
def slotsRetrieved (db : DB) (eventID : Nat) : List TimeSlot :=
  match db.slotsOf eventID with
  | .ok slots => slots
  | .error _ => []

/-- The availability rows retrieved for `slotID` (none when the availability query fails). -/
def rowsRetrieved (db : DB) (slotID : Nat) : List Availability :=
  match db.rowsOf slotID with
  | .ok rows => rows
  | .error _ => []

/-- The participants the rows of `rows` resolve to, in the order of the rows. -/
def usersOf (db : DB) (rows : List Availability) : List Participant :=
  rows.filterMap fun a => (db.participantOf a.ParticipantID).toOption

/-- The handle after the statements `qs` have been issued in order. -/
def issuedAll (db : DB) (qs : List Query) : DB :=
  { db with log := db.log ++ qs }

end DB

/-- The participant lookup made for an availability row. -/
def participantQuery (a : Availability) : Query :=
  Query.participant a.ParticipantID

/-- The lookups of one slot in traversal order: its availability query, then one participant
lookup per retrieved row. -/
def slotQueries (db : DB) (slot : TimeSlot) : List Query :=
  Query.availabilities slot.ID :: (db.rowsRetrieved slot.ID).map participantQuery

/-- All lookups of an aggregation in traversal order: the slot query, then slot by slot the
lookups of that slot. -/
def traversal (db : DB) (eventID : Nat) : List Query :=
  Query.timeSlots eventID :: (db.slotsRetrieved eventID).flatMap (slotQueries db)

/-- The error of the first failing lookup among `qs`, if there is one. -/
def firstFailure (db : DB) (qs : List Query) : Option GoError :=
  qs.findSome? db.failure

/-- The lookups of `qs` up to and including the first failing one (all of them when none
fails). -/
def untilFailure (db : DB) : List Query → List Query
  | [] => []
  | q :: qs => if (db.failure q).isSome then [q] else q :: untilFailure db qs

/-- The recommendation `r` after the rows `rows` have been counted into it and their
participants appended to its lists. -/
def tallied (db : DB) (rows : List Availability) (r : TimeSlotRecommendation) :
    TimeSlotRecommendation :=
  { TimeSlot := r.TimeSlot
    AvailableCount := r.AvailableCount + ((rows.filter fun a => a.IsAvailable).length : Int)
    UnavailableCount := r.UnavailableCount + ((rows.filter fun a => !a.IsAvailable).length : Int)
    AvailableUsers :=
      (db.usersOf (rows.filter fun a => a.IsAvailable)).foldl Slice.append r.AvailableUsers
    UnavailableUsers :=
      (db.usersOf (rows.filter fun a => !a.IsAvailable)).foldl Slice.append r.UnavailableUsers }

/-- The recommendation of a slot: its retrieved rows counted into a fresh recommendation. -/
def tallyOf (db : DB) (slot : TimeSlot) : TimeSlotRecommendation :=
  tallied db (db.rowsRetrieved slot.ID) { TimeSlotRecommendation.zero with TimeSlot := slot }

/-! ## The batched variant of the design note -/

/-- The availability rows of every slot of `slots`, paired with the slot, or the error of
the first availability query that fails. -/
def allRows (db : DB) : List TimeSlot → Except GoError (List (TimeSlot × List Availability))
  | [] => .ok []
  | slot :: rest =>
    match db.rowsOf slot.ID with
    | .error err => .error err
    | .ok rows =>
      match allRows db rest with
      | .error err => .error err
      | .ok more => .ok ((slot, rows) :: more)

/-- The participant ids referenced across all availability rows, each id once. -/
def referencedIDs (slotRows : List (TimeSlot × List Availability)) : List Nat :=
  ((slotRows.flatMap fun sr => sr.2).map fun a => a.ParticipantID).dedup

/-- The fetch of the participants with the ids `ids`, which fails when one of them cannot be
retrieved. -/
def fetchParticipants (db : DB) : List Nat → Except GoError (List Participant)
  | [] => .ok []
  | id :: rest =>
    match db.participantOf id with
    | .error err => .error err
    | .ok participant =>
      match fetchParticipants db rest with
      | .error err => .error err
      | .ok more => .ok (participant :: more)

/-- The in-memory join of the rows `rows` with the fetched participants, counted into `r`.
`none` when a row references a participant that was not fetched. -/
def joinRows (fetched : List Participant) :
    List Availability → TimeSlotRecommendation → Option TimeSlotRecommendation
  | [], r => some r
  | a :: rest, r =>
    match fetched.find? fun p => p.ID == a.ParticipantID with
    | none => none
    | some p =>
      if a.IsAvailable then
        joinRows fetched rest
          { r with AvailableCount := r.AvailableCount + 1
                   AvailableUsers := r.AvailableUsers.append p }
      else
        joinRows fetched rest
          { r with UnavailableCount := r.UnavailableCount + 1
                   UnavailableUsers := r.UnavailableUsers.append p }

/-- The in-memory join for every slot, in the order of the slots. -/
def joinAll (fetched : List Participant) :
    List (TimeSlot × List Availability) → Option (List TimeSlotRecommendation)
  | [] => some []
  | sr :: rest =>
    match joinRows fetched sr.2 { TimeSlotRecommendation.zero with TimeSlot := sr.1 } with
    | none => none
    | some r =>
      match joinAll fetched rest with
      | none => none
      | some more => some (r :: more)

/-- The batched variant the design note describes: retrieve all slots and all their
availability rows, fetch the participants for all referenced ids once, then build each
slot's counts and lists by in-memory join. -/
def batchedRecommendations (db : DB) (eventID : Nat) :
    Slice TimeSlotRecommendation × Option GoError :=
  match db.slotsOf eventID with
  | .error err => (Slice.nil, some err)
  | .ok slots =>
    match allRows db slots with
    | .error err => (Slice.nil, some err)
    | .ok slotRows =>
      match fetchParticipants db (referencedIDs slotRows) with
      | .error err => (Slice.nil, some err)
      | .ok fetched =>
        match joinAll fetched slotRows with
        | none => (Slice.nil, some ErrRecordNotFound)
        | some recs => (Slice.ofAppends recs, none)

/-! ## A concrete database -/

/-- A database on a healthy connection: `Find` answers the matching rows that are not
soft-deleted, in table order; `First` answers the matching participant that is not
soft-deleted, or `ErrRecordNotFound`. -/
def tableEngine : Engine where
  findTimeSlots st eventID :=
    .ok (st.timeSlots.filter fun s => s.EventID == eventID && s.DeletedAt.isNone)
  findAvailabilities st slotID :=
    .ok (st.availabilities.filter fun a => a.TimeSlotID == slotID && a.DeletedAt.isNone)
  firstParticipant st id :=
    match st.participants.find? fun p => p.ID == id && p.DeletedAt.isNone with
    | some p => .ok p
    | none => .error ErrRecordNotFound

/-- Slot S1 of event 1, 09:00 to 10:00 (in seconds of the day). -/
def slotS1 : TimeSlot := ⟨1, 1, 32400, 36000, 0, 0, none⟩

/-- Slot S2 of event 1, 14:00 to 15:00. -/
def slotS2 : TimeSlot := ⟨2, 1, 50400, 54000, 0, 0, none⟩

/-- Participant A. -/
def participantA : Participant := ⟨1, "A", "a@example.com", 0, 0, none⟩

/-- Participant B. -/
def participantB : Participant := ⟨2, "B", "b@example.com", 0, 0, none⟩

/-- The event E of the end-to-end scenario. -/
def eventE : Event := ⟨1, "E", "", 7, 60, 0, 0, none, Slice.nil⟩

/-- The tables of the end-to-end scenario: A marks S1 available and S2 unavailable, B marks
S1 available. -/
def scenarioStore : Store where
  events := [eventE]
  timeSlots := [slotS1, slotS2]
  participants := [participantA, participantB]
  availabilities :=
    [⟨1, 1, 1, true, 0, 0, none⟩, ⟨2, 1, 2, false, 0, 0, none⟩, ⟨3, 2, 1, true, 0, 0, none⟩]

/-- A fresh handle on the scenario tables. -/
def scenarioDB : DB := ⟨tableEngine, scenarioStore, []⟩

/-- The scenario tables with one more row on S2, from a participant 9 who is not stored. -/
def danglingStore : Store :=
  { scenarioStore with
    availabilities := scenarioStore.availabilities ++ [⟨4, 9, 2, true, 0, 0, none⟩] }

/-- A fresh handle on the tables with the dangling row. -/
def danglingDB : DB := ⟨tableEngine, danglingStore, []⟩

/-- The scenario tables with A's submission for S1 stored three times. -/
def repeatedStore : Store :=
  { scenarioStore with
    availabilities :=
      [⟨1, 1, 1, true, 0, 0, none⟩, ⟨2, 1, 1, true, 0, 0, none⟩, ⟨3, 1, 1, true, 0, 0, none⟩] }

/-- A fresh handle on the tables with the repeated submission. -/
def repeatedDB : DB := ⟨tableEngine, repeatedStore, []⟩

/-- The scenario tables with A's submission for S1 as the only availability row, so that S2
has no rows. -/
def sparseStore : Store :=
  { scenarioStore with availabilities := [⟨1, 1, 1, true, 0, 0, none⟩] }

/-- A fresh handle on the tables where S2 has no rows. -/
def sparseDB : DB := ⟨tableEngine, sparseStore, []⟩

/-- An event without time slots, on the scenario tables. -/
def emptyEventID : Nat := 5

/-! ## JSON values and `encoding/json`

The handlers of `internal/api/handlers.go` read and write JSON through `encoding/json`,
which is not part of the repository.  What it writes for the structs of `models.go` is fixed
by their field tags; it is modelled on JSON values rather than on their text.
* `Json.num n` is the integer literal of `n`, `Json.negZero` the literal `-0`, and
  `Json.real` a number literal with a fraction or an exponent.
* `Json.time t` is the JSON string with the RFC 3339 text of the time `t`; there is such a
  text exactly for the years 0 to 9999 and the zone offsets of less than 24 hours, and
  `json.Marshal` fails for a time without one.  It stands for the strings that are written
  from or read into a field of type `time.Time`.
* `Json.str s` is any other JSON string, with the text `s`.  A Go string is written with
  every byte that is not valid UTF-8 replaced by U+FFFD.
-/

/-- A JSON value. -/
inductive Json where
  | null : Json
  | bool (b : Bool) : Json
  | num (n : Int) : Json
  | negZero : Json
  | real (literal : String) : Json
  | str (s : String) : Json
  | time (t : GoTime) : Json
  | arr (elems : List Json) : Json
  | obj (fields : List (String × Json)) : Json

namespace Json

/-- The keys of a JSON object, in order (none for another value). -/
def keys : Json → List String
  | obj fields => fields.map Prod.fst
  | _ => []

/-- The value of the first field `key` of a JSON object. -/
def field (j : Json) (key : String) : Option Json :=
  match j with
  | obj fields => fields.lookup key
  | _ => none

/-- Whether the value is a JSON array. -/
def isArray : Json → Bool
  | arr _ => true
  | _ => false

end Json

/-- Whether `time.Time.MarshalJSON` renders the time `t`: its year is in 0..9999 and the
hours of its zone offset are in 0..23.  The year 0 begins 366 days before the year 1, the
year 10000 begins 3652059 days after it. -/
def timeRenders (t : GoTime) : Bool :=
  decide (-31622400 ≤ t.wall) && decide (t.wall < 315537897600) &&
    decide (-86400 < t.offset) && decide (t.offset < 86400)

/-- The error of `json.Marshal` for a time that `MarshalJSON` does not render. -/
def ErrTimeRange : GoError :=
  ⟨"json: error calling MarshalJSON for type time.Time: Time.MarshalJSON: out of range"⟩

/-- The field of a slice tagged `omitempty`: left out when the slice has no elements (nil or
empty), an array otherwise. -/
def omitEmptySlice {α : Type} (key : String) (enc : α → Json) (s : Slice α) :
    List (String × Json) :=
  if s.toList.isEmpty then [] else [(key, Json.arr (s.toList.map enc))]

/-- A slice as a JSON value: `null` for the nil slice, an array otherwise. -/
def sliceJSON {α : Type} (enc : α → Json) : Slice α → Json
  | Slice.nil => Json.null
  | Slice.mk xs => Json.arr (xs.map enc)

/-- The JSON object of a `models.TimeSlot` (`DeletedAt` is tagged `json:"-"`). -/
def TimeSlot.toJSON (s : TimeSlot) : Json :=
  Json.obj
    [("id", Json.num s.ID), ("event_id", Json.num s.EventID),
     ("start_time", Json.time s.StartTime), ("end_time", Json.time s.EndTime),
     ("created_at", Json.time s.CreatedAt), ("updated_at", Json.time s.UpdatedAt)]

/-- The JSON object of a `models.Event`. -/
def Event.toJSON (e : Event) : Json :=
  Json.obj
    ([("id", Json.num e.ID), ("title", Json.str e.Title.toText),
      ("description", Json.str e.Description.toText), ("organizer_id", Json.num e.OrganizerId),
      ("duration", Json.num e.Duration), ("created_at", Json.time e.CreatedAt),
      ("updated_at", Json.time e.UpdatedAt)]
      ++ omitEmptySlice "time_slots" TimeSlot.toJSON e.TimeSlots)

/-- The JSON object of a `models.Participant`. -/
def Participant.toJSON (p : Participant) : Json :=
  Json.obj
    [("id", Json.num p.ID), ("name", Json.str p.Name.toText),
     ("email", Json.str p.Email.toText),
     ("created_at", Json.time p.CreatedAt), ("updated_at", Json.time p.UpdatedAt)]

/-- The JSON object of a `models.Availability`. -/
def Availability.toJSON (a : Availability) : Json :=
  Json.obj
    [("id", Json.num a.ID), ("participant_id", Json.num a.ParticipantID),
     ("time_slot_id", Json.num a.TimeSlotID), ("is_available", Json.bool a.IsAvailable),
     ("created_at", Json.time a.CreatedAt), ("updated_at", Json.time a.UpdatedAt)]

/-- The JSON object of a `models.TimeSlotRecommendation`. -/
def TimeSlotRecommendation.toJSON (r : TimeSlotRecommendation) : Json :=
  Json.obj
    ([("time_slot", r.TimeSlot.toJSON), ("available_count", Json.num r.AvailableCount),
      ("unavailable_count", Json.num r.UnavailableCount)]
      ++ omitEmptySlice "available_users" Participant.toJSON r.AvailableUsers
      ++ omitEmptySlice "unavailable_users" Participant.toJSON r.UnavailableUsers)

/-- Whether every time of a `models.TimeSlot` that is written renders. -/
def TimeSlot.renders (s : TimeSlot) : Bool :=
  timeRenders s.StartTime && timeRenders s.EndTime && timeRenders s.CreatedAt &&
    timeRenders s.UpdatedAt

/-- Whether every time of a `models.Event` that is written renders. -/
def Event.renders (e : Event) : Bool :=
  timeRenders e.CreatedAt && timeRenders e.UpdatedAt && e.TimeSlots.toList.all TimeSlot.renders

/-- Whether every time of a `models.Participant` that is written renders. -/
def Participant.renders (p : Participant) : Bool :=
  timeRenders p.CreatedAt && timeRenders p.UpdatedAt

/-- Whether every time of a `models.Availability` that is written renders. -/
def Availability.renders (a : Availability) : Bool :=
  timeRenders a.CreatedAt && timeRenders a.UpdatedAt

/-- Whether every time of a `models.TimeSlotRecommendation` that is written renders. -/
def TimeSlotRecommendation.renders (r : TimeSlotRecommendation) : Bool :=
  r.TimeSlot.renders && r.AvailableUsers.toList.all Participant.renders &&
    r.UnavailableUsers.toList.all Participant.renders

/-- The values the handlers hand to `respondWithJSON` as `payload interface{}`. -/
inductive Payload where
  | event (e : Event) : Payload
  | timeSlot (s : TimeSlot) : Payload
  | timeSlots (slots : Slice TimeSlot) : Payload
  | availability (a : Availability) : Payload
  | recommendations (recs : Slice TimeSlotRecommendation) : Payload
  | participant (p : Participant) : Payload
  /-- The map `map[string]string{key: value}`. -/
  | stringMap (key value : String) : Payload

/-- The JSON value of a payload. -/
def Payload.toJSON : Payload → Json
  | Payload.event e => e.toJSON
  | Payload.timeSlot s => s.toJSON
  | Payload.timeSlots slots => sliceJSON TimeSlot.toJSON slots
  | Payload.availability a => a.toJSON
  | Payload.recommendations recs => sliceJSON TimeSlotRecommendation.toJSON recs
  | Payload.participant p => p.toJSON
  | Payload.stringMap key value => Json.obj [(key, Json.str value)]

/-- Whether every time of a payload renders. -/
def Payload.renders : Payload → Bool
  | Payload.event e => e.renders
  | Payload.timeSlot s => s.renders
  | Payload.timeSlots slots => slots.toList.all TimeSlot.renders
  | Payload.availability a => a.renders
  | Payload.recommendations recs => recs.toList.all TimeSlotRecommendation.renders
  | Payload.participant p => p.renders
  | Payload.stringMap _ _ => true

/-- The call `json.Marshal(payload)`: the JSON value of the payload, or an error when one
of its times does not render. -/
def Marshal (payload : Payload) : Except GoError Json :=
  if payload.renders then .ok payload.toJSON else .error ErrTimeRange

/-! ## `internal/api/handlers.go`: responses -/

/-- What a handler has written to the `http.ResponseWriter`: the status, the `Content-Type`
header if it set one, and the body (`none` when nothing was written). -/
structure Response where
  status : Nat
  contentType : Option String
  body : Option Json

/-- The function `respondWithJSON` (lines 89-99). -/
def respondWithJSON (code : Nat) (payload : Payload) : Response :=
  match Marshal payload with
  | .error _ =>
    { status := 500, contentType := none,
      body := some (Json.obj [("error", Json.str "Internal Server Error")]) }
  | .ok response =>
    { status := code, contentType := some "application/json", body := some response }

/-- The function `respondWithError` (lines 101-103). -/
def respondWithError (code : Nat) (message : String) : Response :=
  respondWithJSON code (Payload.stringMap "error" message)

/-! ## `strconv.ParseUint` and the conversion to `uint` -/

/-- The error `strconv.ErrSyntax`. -/
def ErrSyntax : GoError := ⟨"invalid syntax"⟩

/-- The error `strconv.ErrRange`. -/
def ErrRange : GoError := ⟨"value out of range"⟩

/-- The largest value of 32 bits, `1<<32 - 1`. -/
def maxUint32 : Nat := 4294967295

/-- The digit loop of `strconv.ParseUint(s, 10, 32)` with `n` read so far.  A character
that is no decimal digit is a syntax error, a value above `maxUint32` a range error.  As
`n` never exceeds `maxUint32`, the 64-bit arithmetic of the loop does not wrap. -/
def parseDigits : List Char → Nat → Except GoError Nat
  | [], n => .ok n
  | c :: rest, n =>
    if c.isDigit then
      let n1 := n * 10 + (c.toNat - 48)
      if n1 > maxUint32 then .error ErrRange else parseDigits rest n1
    else .error ErrSyntax

/-- The call `strconv.ParseUint(s, 10, 32)`. -/
def ParseUint (s : String) : Except GoError Nat :=
  if s.toList.isEmpty then .error ErrSyntax else parseDigits s.toList 0

/-- The conversion `uint(id)` of a `uint64`, with `uint` of 64 bits.  (With `uint` of 32
bits it keeps every value that `ParseUint(s, 10, 32)` returns as well.) -/
def toUint (n : Nat) : Nat := n % 2 ^ 64

/-- The number a string of decimal digits stands for. -/
def decimalValue (digits : List Char) : Nat :=
  digits.foldl (fun n c => n * 10 + (c.toNat - 48)) 0

/-- An id string the handlers accept: a non-empty sequence of ASCII decimal digits whose
value is at most `2^32 - 1`. -/
def ValidID (s : String) : Prop :=
  s.toList ≠ [] ∧ (∀ c ∈ s.toList, c.isDigit = true) ∧ decimalValue s.toList ≤ 2 ^ 32 - 1

instance (s : String) : Decidable (ValidID s) := by
  unfold ValidID
  infer_instance

/-! ## Decoding JSON values into the structs

The decoding of `encoding/json` for the four structs, as far as the properties need it: for
the JSON values that `json.Marshal` writes for these structs, and for the bodies of the
concrete requests below. -/

/-- The error of `Decode` for a JSON value that does not fit the Go value. -/
def ErrUnmarshal : GoError := ⟨"json: cannot unmarshal value"⟩

/-- The error of `Decode` for a body that holds no JSON value. -/
def ErrNoValue : GoError := ⟨"EOF"⟩

/-- The character of the simple case folding class of `c` that the lower-case field names
are written with: a capital ASCII letter folds to its small letter, the Kelvin sign U+212A
to `k` and the long s U+017F to `s`; no other character folds to an ASCII one. -/
def foldChar (c : Char) : Char :=
  if c = Char.ofNat 8490 then 'k'
  else if c = Char.ofNat 383 then 's'
  else c.toLower

/-- Whether the key of a JSON object names the field tagged `name` (a lower-case ASCII
name): the two are equal under simple case folding. -/
def keyIs (key name : String) : Bool :=
  key.toList.map foldChar == name.toList

/-- Decoding into a `uint` field that holds `old`: the literal has to be an integer without
a sign that fits 64 bits. -/
def decodeUint (v : Json) (old : Nat) : Except GoError Nat :=
  match v with
  | Json.null => .ok old
  | Json.num n => if 0 ≤ n ∧ n < 2 ^ 64 then .ok n.toNat else .error ErrUnmarshal
  | _ => .error ErrUnmarshal

/-- Decoding into an `int` field that holds `old`: the literal has to be an integer that
fits 64 bits. -/
def decodeInt (v : Json) (old : Int) : Except GoError Int :=
  match v with
  | Json.null => .ok old
  | Json.num n => if -(2 ^ 63) ≤ n ∧ n < 2 ^ 63 then .ok n else .error ErrUnmarshal
  | Json.negZero => .ok 0
  | _ => .error ErrUnmarshal

/-- Decoding into a `string` field that holds `old`. -/
def decodeString (v : Json) (old : GoString) : Except GoError GoString :=
  match v with
  | Json.null => .ok old
  | Json.str s => .ok (GoString.ofText s)
  | _ => .error ErrUnmarshal

/-- Decoding into a `bool` field that holds `old`. -/
def decodeBool (v : Json) (old : Bool) : Except GoError Bool :=
  match v with
  | Json.null => .ok old
  | Json.bool b => .ok b
  | _ => .error ErrUnmarshal

/-- Decoding into a `time.Time` field that holds `old`. -/
def decodeTime (v : Json) (old : GoTime) : Except GoError GoTime :=
  match v with
  | Json.null => .ok old
  | Json.time t => if timeRenders t then .ok t else .error ErrUnmarshal
  | _ => .error ErrUnmarshal

/-- Decoding the fields of a JSON object one after the other into the struct `x`, where
`set` decodes one field. -/
def decodeFields {α : Type} (set : α → String → Json → Except GoError α) :
    List (String × Json) → α → Except GoError α
  | [], x => .ok x
  | (key, v) :: rest, x =>
    match set x key v with
    | .error err => .error err
    | .ok x1 => decodeFields set rest x1

/-- Decoding a JSON value into the struct `x`: `null` leaves it as it is, an object sets its
fields, anything else is an error. -/
def decodeStruct {α : Type} (set : α → String → Json → Except GoError α) (v : Json) (x : α) :
    Except GoError α :=
  match v with
  | Json.null => .ok x
  | Json.obj fields => decodeFields set fields x
  | _ => .error ErrUnmarshal

/-- Decoding the elements of a JSON array, each into a fresh element. -/
def decodeElems {α : Type} (dec : Json → Except GoError α) : List Json → Except GoError (List α)
  | [] => .ok []
  | v :: rest =>
    match dec v with
    | .error err => .error err
    | .ok x =>
      match decodeElems dec rest with
      | .error err => .error err
      | .ok xs => .ok (x :: xs)

/-- One field of a `models.TimeSlot`, by its tag; a key that names no field is skipped. -/
def TimeSlot.setField (s : TimeSlot) (key : String) (v : Json) : Except GoError TimeSlot :=
  if keyIs key "id" then (decodeUint v s.ID).map fun n => { s with ID := n }
  else if keyIs key "event_id" then (decodeUint v s.EventID).map fun n => { s with EventID := n }
  else if keyIs key "start_time" then
    (decodeTime v s.StartTime).map fun t => { s with StartTime := t }
  else if keyIs key "end_time" then (decodeTime v s.EndTime).map fun t => { s with EndTime := t }
  else if keyIs key "created_at" then
    (decodeTime v s.CreatedAt).map fun t => { s with CreatedAt := t }
  else if keyIs key "updated_at" then
    (decodeTime v s.UpdatedAt).map fun t => { s with UpdatedAt := t }
  else .ok s

/-- Decoding into a `[]models.TimeSlot` field: `null` gives the nil slice, an array a
slice of its decoded elements. -/
def decodeTimeSlots (v : Json) : Except GoError (Slice TimeSlot) :=
  match v with
  | Json.null => .ok Slice.nil
  | Json.arr elems =>
    (decodeElems (fun e => decodeStruct TimeSlot.setField e TimeSlot.zero) elems).map Slice.mk
  | _ => .error ErrUnmarshal

/-- One field of a `models.Event`, by its tag. -/
def Event.setField (e : Event) (key : String) (v : Json) : Except GoError Event :=
  if keyIs key "id" then (decodeUint v e.ID).map fun n => { e with ID := n }
  else if keyIs key "title" then (decodeString v e.Title).map fun t => { e with Title := t }
  else if keyIs key "description" then
    (decodeString v e.Description).map fun t => { e with Description := t }
  else if keyIs key "organizer_id" then
    (decodeUint v e.OrganizerId).map fun n => { e with OrganizerId := n }
  else if keyIs key "duration" then (decodeInt v e.Duration).map fun n => { e with Duration := n }
  else if keyIs key "created_at" then
    (decodeTime v e.CreatedAt).map fun t => { e with CreatedAt := t }
  else if keyIs key "updated_at" then
    (decodeTime v e.UpdatedAt).map fun t => { e with UpdatedAt := t }
  else if keyIs key "time_slots" then
    (decodeTimeSlots v).map fun slots => { e with TimeSlots := slots }
  else .ok e

/-- One field of a `models.Participant`, by its tag. -/
def Participant.setField (p : Participant) (key : String) (v : Json) :
    Except GoError Participant :=
  if keyIs key "id" then (decodeUint v p.ID).map fun n => { p with ID := n }
  else if keyIs key "name" then (decodeString v p.Name).map fun t => { p with Name := t }
  else if keyIs key "email" then (decodeString v p.Email).map fun t => { p with Email := t }
  else if keyIs key "created_at" then
    (decodeTime v p.CreatedAt).map fun t => { p with CreatedAt := t }
  else if keyIs key "updated_at" then
    (decodeTime v p.UpdatedAt).map fun t => { p with UpdatedAt := t }
  else .ok p

/-- One field of a `models.Availability`, by its tag. -/
def Availability.setField (a : Availability) (key : String) (v : Json) :
    Except GoError Availability :=
  if keyIs key "id" then (decodeUint v a.ID).map fun n => { a with ID := n }
  else if keyIs key "participant_id" then
    (decodeUint v a.ParticipantID).map fun n => { a with ParticipantID := n }
  else if keyIs key "time_slot_id" then
    (decodeUint v a.TimeSlotID).map fun n => { a with TimeSlotID := n }
  else if keyIs key "is_available" then
    (decodeBool v a.IsAvailable).map fun b => { a with IsAvailable := b }
  else if keyIs key "created_at" then
    (decodeTime v a.CreatedAt).map fun t => { a with CreatedAt := t }
  else if keyIs key "updated_at" then
    (decodeTime v a.UpdatedAt).map fun t => { a with UpdatedAt := t }
  else .ok a

/-- Zero value of `models.Event`. -/
def Event.zero : Event := ⟨0, "", "", 0, 0, 0, 0, none, Slice.nil⟩

/-- Zero value of `models.Participant`. -/
def Participant.zero : Participant := ⟨0, "", "", 0, 0, none⟩

/-- Zero value of `models.Availability`. -/
def Availability.zero : Availability := ⟨0, 0, 0, false, 0, 0, none⟩

/-- The statement `json.NewDecoder(r).Decode(&x)` for a fresh struct `x` whose zero value is
`zero`; `body` is the first JSON value of what is read, `none` when there is none. -/
def decodeBody {α : Type} (set : α → String → Json → Except GoError α) (zero : α)
    (body : Option Json) : Except GoError α :=
  match body with
  | none => .error ErrNoValue
  | some v => decodeStruct set v zero

/-! ## `internal/api/handlers.go`: the handlers -/

/-- The body of a request as the handlers see it.  `encoding/json` is not part of the
repository: the body is given by what `json.NewDecoder(r.Body).Decode(&x)` answers for it,
for a fresh `x` of each of the four structs the handlers decode into. -/
structure Body where
  event : Except GoError Event
  timeSlot : Except GoError TimeSlot
  availability : Except GoError Availability
  participant : Except GoError Participant

/-- The body whose first JSON value is `v` (`none`: it holds no JSON value). -/
def Body.ofJSON (v : Option Json) : Body where
  event := decodeBody Event.setField Event.zero v
  timeSlot := decodeBody TimeSlot.setField TimeSlot.zero v
  availability := decodeBody Availability.setField Availability.zero v
  participant := decodeBody Participant.setField Participant.zero v

/-- The part of an `*http.Request` the handlers read: the route variables `mux.Vars(r)` and
the body. -/
structure Request where
  vars : List (String × String)
  body : Body

/-- The expression `mux.Vars(r)[name]` (the empty string when the map has no such key). -/
def Request.pathVar (r : Request) (name : String) : String :=
  (r.vars.lookup name).getD ""

/-- The interface `repository.Repository`.  A method that takes a pointer answers with the
struct as the call has left it and the error; a method that returns a pointer answers with
the struct or the error. -/
structure Repository where
  CreateEvent : Event → Event × Option GoError
  GetEvent : Nat → Except GoError Event
  UpdateEvent : Event → Event × Option GoError
  DeleteEvent : Nat → Option GoError
  CreateTimeSlot : TimeSlot → TimeSlot × Option GoError
  GetTimeSlots : Nat → Slice TimeSlot × Option GoError
  CreateAvailability : Availability → Availability × Option GoError
  GetTimeSlotRecommendations : Nat → Slice TimeSlotRecommendation × Option GoError
  CreateParticipant : Participant → Participant × Option GoError
  GetParticipant : Nat → Except GoError Participant

/-- A call of a repository method, with its argument. -/
inductive RepoCall where
  | CreateEvent (event : Event) : RepoCall
  | GetEvent (id : Nat) : RepoCall
  | UpdateEvent (event : Event) : RepoCall
  | DeleteEvent (id : Nat) : RepoCall
  | CreateTimeSlot (slot : TimeSlot) : RepoCall
  | GetTimeSlots (eventID : Nat) : RepoCall
  | CreateAvailability (availability : Availability) : RepoCall
  | GetTimeSlotRecommendations (eventID : Nat) : RepoCall
  | CreateParticipant (participant : Participant) : RepoCall
  | GetParticipant (id : Nat) : RepoCall
  deriving DecidableEq

/-- The struct `Handler`; its logger writes no part of a response. -/
structure Handler where
  Repo : Repository

namespace Handler

/-- The handler `CreateEvent` (lines 106-124): the response and the repository calls made. -/
def CreateEvent (h : Handler) (r : Request) : Response × List RepoCall :=
  match r.body.event with
  | .error _ => (respondWithError 400 "Invalid request payload", [])
  | .ok event =>
    match h.Repo.CreateEvent event with
    | (_, some err) => (respondWithError 500 err.message, [RepoCall.CreateEvent event])
    | (event1, none) =>
      (respondWithJSON 201 (Payload.event event1), [RepoCall.CreateEvent event])

/-- The handler `GetEvent` (lines 127-145). -/
def GetEvent (h : Handler) (r : Request) : Response × List RepoCall :=
  match ParseUint (r.pathVar "id") with
  | .error _ => (respondWithError 400 "Invalid event ID", [])
  | .ok id =>
    match h.Repo.GetEvent (toUint id) with
    | .error err => (respondWithError 500 err.message, [RepoCall.GetEvent (toUint id)])
    | .ok event => (respondWithJSON 200 (Payload.event event), [RepoCall.GetEvent (toUint id)])

/-- The handler `UpdateEvent` (lines 148-175). -/
def UpdateEvent (h : Handler) (r : Request) : Response × List RepoCall :=
  match ParseUint (r.pathVar "id") with
  | .error _ => (respondWithError 400 "Invalid event ID", [])
  | .ok id =>
    match r.body.event with
    | .error _ => (respondWithError 400 "Invalid request payload", [])
    | .ok event =>
      let event := { event with ID := toUint id }
      match h.Repo.UpdateEvent event with
      | (_, some err) => (respondWithError 500 err.message, [RepoCall.UpdateEvent event])
      | (event1, none) =>
        (respondWithJSON 200 (Payload.event event1), [RepoCall.UpdateEvent event])

/-- The handler `DeleteEvent` (lines 178-195). -/
def DeleteEvent (h : Handler) (r : Request) : Response × List RepoCall :=
  match ParseUint (r.pathVar "id") with
  | .error _ => (respondWithError 400 "Invalid event ID", [])
  | .ok id =>
    match h.Repo.DeleteEvent (toUint id) with
    | some err => (respondWithError 500 err.message, [RepoCall.DeleteEvent (toUint id)])
    | none =>
      ({ status := 204, contentType := none, body := none }, [RepoCall.DeleteEvent (toUint id)])

/-- The handler `AddTimeSlot` (lines 198-227). -/
def AddTimeSlot (h : Handler) (r : Request) : Response × List RepoCall :=
  match ParseUint (r.pathVar "id") with
  | .error _ => (respondWithError 400 "Invalid event ID", [])
  | .ok eventID =>
    match r.body.timeSlot with
    | .error _ => (respondWithError 400 "Invalid request payload", [])
    | .ok timeSlot =>
      let timeSlot := { timeSlot with EventID := toUint eventID }
      match h.Repo.CreateTimeSlot timeSlot with
      | (_, some err) => (respondWithError 500 err.message, [RepoCall.CreateTimeSlot timeSlot])
      | (timeSlot1, none) =>
        (respondWithJSON 201 (Payload.timeSlot timeSlot1), [RepoCall.CreateTimeSlot timeSlot])

/-- The handler `GetTimeSlots` (lines 230-248). -/
def GetTimeSlots (h : Handler) (r : Request) : Response × List RepoCall :=
  match ParseUint (r.pathVar "id") with
  | .error _ => (respondWithError 400 "Invalid event ID", [])
  | .ok eventID =>
    match h.Repo.GetTimeSlots (toUint eventID) with
    | (_, some err) =>
      (respondWithError 500 err.message, [RepoCall.GetTimeSlots (toUint eventID)])
    | (timeSlots, none) =>
      (respondWithJSON 200 (Payload.timeSlots timeSlots),
        [RepoCall.GetTimeSlots (toUint eventID)])

/-- The handler `SubmitAvailability` (lines 251-280). -/
def SubmitAvailability (h : Handler) (r : Request) : Response × List RepoCall :=
  match ParseUint (r.pathVar "id") with
  | .error _ => (respondWithError 400 "Invalid event ID", [])
  | .ok eventID =>
    match r.body.availability with
    | .error _ => (respondWithError 400 "Invalid request payload", [])
    | .ok availability =>
      let availability := { availability with ID := toUint eventID }
      match h.Repo.CreateAvailability availability with
      | (_, some err) =>
        (respondWithError 500 err.message, [RepoCall.CreateAvailability availability])
      | (availability1, none) =>
        (respondWithJSON 201 (Payload.availability availability1),
          [RepoCall.CreateAvailability availability])

/-- The handler `GetRecommendations` (lines 283-301). -/
def GetRecommendations (h : Handler) (r : Request) : Response × List RepoCall :=
  match ParseUint (r.pathVar "id") with
  | .error _ => (respondWithError 400 "Invalid event ID", [])
  | .ok eventID =>
    match h.Repo.GetTimeSlotRecommendations (toUint eventID) with
    | (_, some err) =>
      (respondWithError 500 err.message, [RepoCall.GetTimeSlotRecommendations (toUint eventID)])
    | (recommendations, none) =>
      (respondWithJSON 200 (Payload.recommendations recommendations),
        [RepoCall.GetTimeSlotRecommendations (toUint eventID)])

/-- The handler `CreateParticipant` (lines 304-322). -/
def CreateParticipant (h : Handler) (r : Request) : Response × List RepoCall :=
  match r.body.participant with
  | .error _ => (respondWithError 400 "Invalid request payload", [])
  | .ok participant =>
    match h.Repo.CreateParticipant participant with
    | (_, some err) =>
      (respondWithError 500 err.message, [RepoCall.CreateParticipant participant])
    | (participant1, none) =>
      (respondWithJSON 201 (Payload.participant participant1),
        [RepoCall.CreateParticipant participant])

/-- The handler `GetParticipant` (lines 325-343). -/
def GetParticipant (h : Handler) (r : Request) : Response × List RepoCall :=
  match ParseUint (r.pathVar "id") with
  | .error _ => (respondWithError 400 "Invalid participant ID", [])
  | .ok id =>
    match h.Repo.GetParticipant (toUint id) with
    | .error err => (respondWithError 500 err.message, [RepoCall.GetParticipant (toUint id)])
    | .ok participant =>
      (respondWithJSON 200 (Payload.participant participant),
        [RepoCall.GetParticipant (toUint id)])

end Handler

/-! ## Repositories and requests used in the properties -/

/-- The struct `PostgresRepository` on the handle `db`, as far as it is embedded here:
`GetTimeSlotRecommendations` is the embedded method; the other methods, single gorm
statements, answer as `rest` does. -/
def PostgresRepository (db : DB) (rest : Repository) : Repository :=
  { rest with
    GetTimeSlotRecommendations := fun eventID => (GetTimeSlotRecommendations db eventID).1 }

/-- The event of `TestGetEvent`. -/
def sampleEvent : Event := ⟨1, "Test Event", "Test Description", 1, 60, 0, 0, none, Slice.nil⟩

/-- A repository in the manner of the tests' `MockRepository`: every write succeeds and
leaves the struct as it is, every read answers a fixed value. -/
def mockRepository : Repository where
  CreateEvent event := (event, none)
  GetEvent _ := .ok sampleEvent
  UpdateEvent event := (event, none)
  DeleteEvent _ := none
  CreateTimeSlot slot := (slot, none)
  GetTimeSlots _ := (Slice.mk [slotS1], none)
  CreateAvailability availability := (availability, none)
  GetTimeSlotRecommendations _ := (Slice.mk [⟨slotS1, 3, 1, Slice.nil, Slice.nil⟩], none)
  CreateParticipant participant := (participant, none)
  GetParticipant _ := .ok participantA

/-- A request with the route variable `id` and the body whose first JSON value is `body`. -/
def requestFor (id : String) (body : Option Json) : Request :=
  ⟨[("id", id)], Body.ofJSON body⟩

/-- A `models.TimeSlot` whose `uint` fields hold values of 64 bits. -/
def TimeSlot.InRange (s : TimeSlot) : Prop :=
  s.ID < 2 ^ 64 ∧ s.EventID < 2 ^ 64

/-- A `models.Event` whose `uint` and `int` fields hold values of 64 bits. -/
def Event.InRange (e : Event) : Prop :=
  e.ID < 2 ^ 64 ∧ e.OrganizerId < 2 ^ 64 ∧ -(2 ^ 63) ≤ e.Duration ∧ e.Duration < 2 ^ 63 ∧
    ∀ s ∈ e.TimeSlots.toList, s.InRange

/-- The struct a `models.TimeSlot` decodes back to: `DeletedAt` is not part of the JSON. -/
def TimeSlot.decoded (s : TimeSlot) : TimeSlot :=
  { s with DeletedAt := none }

/-- The struct a `models.Event` decodes back to: the strings are read back from the text
that was written for them, `DeletedAt` is not part of the JSON, and `TimeSlots` is left out
of it when it has no elements. -/
def Event.decoded (e : Event) : Event :=
  { e with
    Title := GoString.ofText e.Title.toText
    Description := GoString.ofText e.Description.toText
    DeletedAt := none
    TimeSlots :=
      if e.TimeSlots.toList.isEmpty then Slice.nil
      else Slice.mk (e.TimeSlots.toList.map TimeSlot.decoded) }

/-- The number the route variable `id` of a request stands for. -/
def Request.id (r : Request) : Nat :=
  decimalValue (r.pathVar "id").toList

/-- A first submission for event 7: participant 1 is available for slot 3. -/
def submissionOne : Request :=
  requestFor "7"
    (some (Json.obj
      [("participant_id", Json.num 1), ("time_slot_id", Json.num 3),
       ("is_available", Json.bool true)]))

/-- A second submission for event 7: participant 2 is available for slot 3. -/
def submissionTwo : Request :=
  requestFor "7"
    (some (Json.obj
      [("participant_id", Json.num 2), ("time_slot_id", Json.num 3),
       ("is_available", Json.bool true)]))

/-- The handler `H`, which reads no body, guards its path id with the error `message` and
hands it to the repository as `call`: it answers 400 with that error and calls no repository
method exactly when the id string is not accepted, and for an accepted id it makes exactly
the call `call` with the number the string stands for. -/
def GuardsID (H : Handler → Request → Response × List RepoCall) (message : String)
    (call : Nat → RepoCall) : Prop :=
  ∀ (h : Handler) (r : Request),
    (((H h r).1 = respondWithError 400 message ∧ (H h r).2 = []) ↔
      ¬ValidID (r.pathVar "id")) ∧
    (ValidID (r.pathVar "id") → (H h r).2 = [call r.id])

/-- The handler `H`, which decodes the body with `decoded`, guards its path id with the
error `message` and hands it to the repository inside the decoded struct as `call`: it
answers 400 with that error and calls no repository method exactly when the id string is
not accepted; for an accepted id it makes exactly the call `call` with the decoded struct
and the number the string stands for when the body decodes, and answers 400 with "Invalid
request payload" without a call when it does not. -/
def GuardsIDWithBody {α : Type} (H : Handler → Request → Response × List RepoCall)
    (message : String) (decoded : Body → Except GoError α) (call : α → Nat → RepoCall) :
    Prop :=
  ∀ (h : Handler) (r : Request),
    (((H h r).1 = respondWithError 400 message ∧ (H h r).2 = []) ↔
      ¬ValidID (r.pathVar "id")) ∧
    (ValidID (r.pathVar "id") →
      (∀ x, decoded r.body = .ok x → (H h r).2 = [call x r.id]) ∧
      (∀ err, decoded r.body = .error err →
        H h r = (respondWithError 400 "Invalid request payload", [])))

/-- The body of `TestUpdateEvent`, with the id 5 where the test has 1. -/
def updateBody : Json :=
  Json.obj
    [("id", Json.num 5), ("title", Json.str "Updated Event"),
     ("description", Json.str "Updated Description"), ("organizer_id", Json.num 1),
     ("duration", Json.num 90)]

/-- The event `updateBody` decodes to. -/
def updateDecoded : Event :=
  ⟨5, "Updated Event", "Updated Description", 1, 90, 0, 0, none, Slice.nil⟩

/-- A body for a new time slot. -/
def slotBody : Json :=
  Json.obj [("start_time", Json.time 32400), ("end_time", Json.time 36000)]

/-- A body for a new participant. -/
def participantBody : Json :=
  Json.obj [("name", Json.str "A"), ("email", Json.str "a@example.com")]

/-- The event of `TestGetEvent` with a creation time in the year 10000. -/
def farFutureEvent : Event :=
  { sampleEvent with CreatedAt := 315537897600 }

/-- The first slot of the scenario with an end in the year 10000. -/
def farFutureSlot : TimeSlot :=
  { slotS1 with EndTime := 315537897600 }

/-- The mock repository with `farFutureEvent` as the event and `farFutureSlot` as the one
slot it returns. -/
def farFutureRepository : Repository :=
  { mockRepository with
    GetEvent := fun _ => .ok farFutureEvent
    GetTimeSlots := fun _ => (Slice.mk [farFutureSlot], none) }

/-- The event of `TestGetEvent` with a title of the character `T` and the byte 255, which
is not valid UTF-8. -/
def brokenTitleEvent : Event :=
  { sampleEvent with Title := ⟨[GoRune.char 'T', GoRune.invalid 255]⟩ }

/-- The mock repository with `brokenTitleEvent` as the event it returns. -/
def brokenTitleRepository : Repository :=
  { mockRepository with GetEvent := fun _ => .ok brokenTitleEvent }

/-- A repository whose `UpdateEvent` writes to the struct it is handed, as gorm's `Save`
does with the time of the update: it sets `UpdatedAt` and, here, the `ID` as well. -/
def writingRepository : Repository :=
  { mockRepository with
    UpdateEvent := fun event => ({ event with ID := 99, UpdatedAt := 86400 }, none) }

/-! ## Helper lemmas -/

section Helpers

variable (db : DB)

@[simp] theorem issued_participantOf (q : Query) (id : Nat) :
    (db.issued q).participantOf id = db.participantOf id := rfl

@[simp] theorem issued_rowsOf (q : Query) (id : Nat) :
    (db.issued q).rowsOf id = db.rowsOf id := rfl

@[simp] theorem issuedAll_participantOf (qs : List Query) (id : Nat) :
    (db.issuedAll qs).participantOf id = db.participantOf id := rfl

@[simp] theorem issuedAll_rowsOf (qs : List Query) (id : Nat) :
    (db.issuedAll qs).rowsOf id = db.rowsOf id := rfl

theorem issuedAll_nil : db.issuedAll [] = db := by
  cases db; simp [DB.issuedAll]

theorem issued_issuedAll (q : Query) (qs : List Query) :
    (db.issued q).issuedAll qs = db.issuedAll (q :: qs) := by
  simp [DB.issued, DB.issuedAll]

theorem issuedAll_issuedAll (qs rs : List Query) :
    (db.issuedAll qs).issuedAll rs = db.issuedAll (qs ++ rs) := by
  simp [DB.issuedAll]

theorem issued_eq_issuedAll (q : Query) : db.issued q = db.issuedAll [q] := rfl

theorem failure_issued (q : Query) : (db.issued q).failure = db.failure := by
  funext r; cases r <;> rfl

theorem failure_issuedAll (qs : List Query) : (db.issuedAll qs).failure = db.failure := by
  funext r; cases r <;> rfl

theorem usersOf_issued (q : Query) : (db.issued q).usersOf = db.usersOf := rfl

theorem tallied_issued (q : Query) : tallied (db.issued q) = tallied db := rfl

theorem tallied_issuedAll (qs : List Query) : tallied (db.issuedAll qs) = tallied db := rfl

theorem untilFailure_issued (q : Query) (qs : List Query) :
    untilFailure (db.issued q) qs = untilFailure db qs := by
  induction qs with
  | nil => rfl
  | cons r rs ih => simp [untilFailure, failure_issued, ih]

theorem untilFailure_issuedAll (ps qs : List Query) :
    untilFailure (db.issuedAll ps) qs = untilFailure db qs := by
  induction qs with
  | nil => rfl
  | cons r rs ih => simp [untilFailure, failure_issuedAll, ih]

theorem firstFailure_issued (q : Query) (qs : List Query) :
    firstFailure (db.issued q) qs = firstFailure db qs := by
  simp [firstFailure, failure_issued]

theorem firstFailure_issuedAll (ps qs : List Query) :
    firstFailure (db.issuedAll ps) qs = firstFailure db qs := by
  simp [firstFailure, failure_issuedAll]

/-- The inner loop, in closed form: it fails with the first failing participant lookup and
otherwise returns the tallied recommendation; it issues the lookups up to that failure. -/
theorem countLoop_eq (rows : List Availability) (r : TimeSlotRecommendation) :
    countLoop rows r db =
      (match firstFailure db (rows.map participantQuery) with
        | some err => Except.error err
        | none => Except.ok (tallied db rows r),
       db.issuedAll (untilFailure db (rows.map participantQuery))) := by
  induction rows generalizing r db with
  | nil =>
    simp [countLoop, firstFailure, untilFailure, issuedAll_nil, tallied, DB.usersOf]
  | cons a rest ih =>
    unfold countLoop
    cases hflag : a.IsAvailable <;> cases hp : db.participantOf a.ParticipantID <;>
      simp [DB.FirstParticipant, hp, ih, firstFailure, untilFailure, participantQuery,
        DB.failure, issued_issuedAll, failure_issued, untilFailure_issued,
        tallied, DB.usersOf, hflag, Except.toOption, issued_eq_issuedAll,
        failure_issuedAll, untilFailure_issuedAll, issuedAll_issuedAll, add_assoc,
        add_comm (1 : Int)]

theorem firstFailure_cons (q : Query) (qs : List Query) :
    firstFailure db (q :: qs) = (db.failure q).or (firstFailure db qs) := by
  simp only [firstFailure, List.findSome?_cons]
  cases db.failure q <;> rfl

theorem firstFailure_append (ps qs : List Query) :
    firstFailure db (ps ++ qs) = (firstFailure db ps).or (firstFailure db qs) := by
  simp [firstFailure, List.findSome?_append]

theorem untilFailure_append_of_none (ps qs : List Query) (h : firstFailure db ps = none) :
    untilFailure db (ps ++ qs) = ps ++ untilFailure db qs := by
  induction ps with
  | nil => rfl
  | cons p ps ih =>
    rw [firstFailure_cons] at h
    cases hp : db.failure p with
    | some e => simp [hp] at h
    | none =>
      simp only [hp, Option.or] at h
      simp [untilFailure, hp, ih h]

theorem untilFailure_append_of_some (ps qs : List Query) (e : GoError)
    (h : firstFailure db ps = some e) :
    untilFailure db (ps ++ qs) = untilFailure db ps := by
  induction ps with
  | nil => simp [firstFailure] at h
  | cons p ps ih =>
    rw [firstFailure_cons] at h
    cases hp : db.failure p with
    | some e => simp [untilFailure, hp]
    | none =>
      simp only [hp, Option.or] at h
      simp [untilFailure, hp, ih h]

theorem slotQueries_issuedAll (qs : List Query) : slotQueries (db.issuedAll qs) = slotQueries db :=
  rfl

theorem tallyOf_issuedAll (qs : List Query) : tallyOf (db.issuedAll qs) = tallyOf db := rfl

/-- The outer loop, in closed form. -/
theorem slotLoop_eq (slots : List TimeSlot) (recs : Slice TimeSlotRecommendation) :
    slotLoop slots recs db =
      (match firstFailure db (slots.flatMap (slotQueries db)) with
        | some err => (Slice.nil, some err)
        | none => ((slots.map (tallyOf db)).foldl Slice.append recs, none),
       db.issuedAll (untilFailure db (slots.flatMap (slotQueries db)))) := by
  induction slots generalizing recs db with
  | nil => simp [slotLoop, firstFailure, untilFailure, issuedAll_nil]
  | cons slot rest ih =>
    unfold slotLoop
    cases hrows : db.rowsOf slot.ID with
    | error e =>
      simp [DB.FindAvailabilities, hrows, slotQueries, firstFailure_cons, DB.failure,
        untilFailure, issued_eq_issuedAll]
    | ok rows =>
      have hq : db.failure (Query.availabilities slot.ID) = none := by simp [DB.failure, hrows]
      have hrr : db.rowsRetrieved slot.ID = rows := by simp [DB.rowsRetrieved, hrows]
      simp only [DB.FindAvailabilities, hrows, countLoop_eq, issued_eq_issuedAll,
        firstFailure_issuedAll, untilFailure_issuedAll, issuedAll_issuedAll]
      cases hf : firstFailure db (rows.map participantQuery) with
      | some e =>
        have h1 : firstFailure db (slotQueries db slot) = some e := by
          simp [slotQueries, firstFailure_cons, hq, hrr, hf]
        simp [List.flatMap_cons, firstFailure_append, h1,
          untilFailure_append_of_some db _ _ e h1]
        simp [slotQueries, untilFailure, hq, hrr]
      | none =>
        have h1 : firstFailure db (slotQueries db slot) = none := by
          simp [slotQueries, firstFailure_cons, hq, hrr, hf]
        have h2 : untilFailure db (rows.map participantQuery) = rows.map participantQuery := by
          have := untilFailure_append_of_none db _ [] hf
          simpa [untilFailure] using this
        simp [List.flatMap_cons, firstFailure_append, h1, ih,
          untilFailure_append_of_none db _ _ h1, firstFailure_issuedAll,
          untilFailure_issuedAll, issuedAll_issuedAll, slotQueries_issuedAll,
          tallyOf_issuedAll, h2]
        simp [slotQueries, tallyOf, hrr, tallied_issuedAll]

/-- The aggregation, in closed form: it fails with the first failing lookup of the
traversal, otherwise returns the recommendations of the retrieved slots, appended in order
to the nil slice; it issues the lookups of the traversal up to the first failure. -/
theorem GetTimeSlotRecommendations_eq (eventID : Nat) :
    GetTimeSlotRecommendations db eventID =
      (match firstFailure db (traversal db eventID) with
        | some err => (Slice.nil, some err)
        | none => (Slice.ofAppends ((db.slotsRetrieved eventID).map (tallyOf db)), none),
       db.issuedAll (untilFailure db (traversal db eventID))) := by
  unfold GetTimeSlotRecommendations
  cases hs : db.slotsOf eventID with
  | error e =>
    simp [DB.FindTimeSlots, hs, traversal, firstFailure_cons, DB.failure, untilFailure,
      issued_eq_issuedAll]
  | ok slots =>
    have hq : db.failure (Query.timeSlots eventID) = none := by simp [DB.failure, hs]
    have hsr : db.slotsRetrieved eventID = slots := by simp [DB.slotsRetrieved, hs]
    simp only [DB.FindTimeSlots, hs, slotLoop_eq, issued_eq_issuedAll, firstFailure_issuedAll,
      untilFailure_issuedAll, issuedAll_issuedAll, slotQueries_issuedAll, tallyOf_issuedAll,
      traversal, hsr, firstFailure_cons, hq, Option.or, untilFailure, Slice.ofAppends]
    simp

theorem result_error (eventID : Nat) :
    (GetTimeSlotRecommendations db eventID).1.2 = firstFailure db (traversal db eventID) := by
  rw [GetTimeSlotRecommendations_eq]
  cases firstFailure db (traversal db eventID) <;> rfl

theorem result_slice_of_ok (eventID : Nat) (h : firstFailure db (traversal db eventID) = none) :
    (GetTimeSlotRecommendations db eventID).1.1 =
      Slice.ofAppends ((db.slotsRetrieved eventID).map (tallyOf db)) := by
  rw [GetTimeSlotRecommendations_eq, h]

theorem result_slice_of_error (eventID : Nat) (e : GoError)
    (h : firstFailure db (traversal db eventID) = some e) :
    (GetTimeSlotRecommendations db eventID).1.1 = Slice.nil := by
  rw [GetTimeSlotRecommendations_eq, h]

theorem result_handle (eventID : Nat) :
    (GetTimeSlotRecommendations db eventID).2 =
      db.issuedAll (untilFailure db (traversal db eventID)) := by
  rw [GetTimeSlotRecommendations_eq]

theorem failure_eq_none_participant (id : Nat) :
    db.failure (Query.participant id) = none ↔ ∃ p, db.participantOf id = .ok p := by
  cases h : db.participantOf id <;> simp [DB.failure, h]

theorem failure_eq_none_availabilities (id : Nat) :
    db.failure (Query.availabilities id) = none ↔ ∃ rows, db.rowsOf id = .ok rows := by
  cases h : db.rowsOf id <;> simp [DB.failure, h]

theorem failure_eq_none_timeSlots (id : Nat) :
    db.failure (Query.timeSlots id) = none ↔ ∃ slots, db.slotsOf id = .ok slots := by
  cases h : db.slotsOf id <;> simp [DB.failure, h]

theorem firstFailure_eq_none_iff (qs : List Query) :
    firstFailure db qs = none ↔ ∀ q ∈ qs, db.failure q = none := by
  simp [firstFailure]

/-- No lookup of the traversal fails exactly when the slot query, the availability query of
every retrieved slot and the participant lookup of every retrieved row are answered. -/
theorem traversal_ok_iff (eventID : Nat) :
    firstFailure db (traversal db eventID) = none ↔
      ∃ slots, db.slotsOf eventID = .ok slots ∧
        ∀ s ∈ slots, ∃ rows, db.rowsOf s.ID = .ok rows ∧
          ∀ a ∈ rows, ∃ p, db.participantOf a.ParticipantID = .ok p := by
  rw [firstFailure_eq_none_iff]
  constructor
  · intro h
    have h0 := h (Query.timeSlots eventID) (by simp [traversal])
    obtain ⟨slots, hs⟩ := (failure_eq_none_timeSlots db eventID).1 h0
    have hsr : db.slotsRetrieved eventID = slots := by simp [DB.slotsRetrieved, hs]
    refine ⟨slots, hs, fun s hmem => ?_⟩
    have h1 := h (Query.availabilities s.ID) (by
      simp only [traversal, hsr, List.mem_cons, List.mem_flatMap]
      exact Or.inr ⟨s, hmem, by simp [slotQueries]⟩)
    obtain ⟨rows, hr⟩ := (failure_eq_none_availabilities db s.ID).1 h1
    have hrr : db.rowsRetrieved s.ID = rows := by simp [DB.rowsRetrieved, hr]
    refine ⟨rows, hr, fun a ha => ?_⟩
    apply (failure_eq_none_participant db a.ParticipantID).1
    apply h
    simp only [traversal, hsr, List.mem_cons, List.mem_flatMap]
    refine Or.inr ⟨s, hmem, ?_⟩
    simp only [slotQueries, hrr, List.mem_cons, List.mem_map]
    exact Or.inr ⟨a, ha, rfl⟩
  · rintro ⟨slots, hs, hall⟩ q hq
    have hsr : db.slotsRetrieved eventID = slots := by simp [DB.slotsRetrieved, hs]
    simp only [traversal, hsr, List.mem_cons, List.mem_flatMap] at hq
    rcases hq with rfl | ⟨s, hmem, hq⟩
    · exact (failure_eq_none_timeSlots db eventID).2 ⟨slots, hs⟩
    · obtain ⟨rows, hr, hp⟩ := hall s hmem
      have hrr : db.rowsRetrieved s.ID = rows := by simp [DB.rowsRetrieved, hr]
      simp only [slotQueries, hrr, List.mem_cons, List.mem_map] at hq
      rcases hq with rfl | ⟨a, ha, rfl⟩
      · exact (failure_eq_none_availabilities db s.ID).2 ⟨rows, hr⟩
      · exact (failure_eq_none_participant db a.ParticipantID).2 (hp a ha)

end Helpers

section SliceLemmas

variable {α : Type}

@[simp] theorem Slice.toList_nil : (Slice.nil : Slice α).toList = [] := rfl

@[simp] theorem Slice.toList_mk (xs : List α) : (Slice.mk xs).toList = xs := rfl

@[simp] theorem Slice.toList_append (s : Slice α) (x : α) :
    (s.append x).toList = s.toList ++ [x] := rfl

theorem Slice.toList_foldl_append (s : Slice α) (xs : List α) :
    (xs.foldl Slice.append s).toList = s.toList ++ xs := by
  induction xs generalizing s with
  | nil => simp
  | cons x xs ih => simp [ih]

theorem Slice.toList_ofAppends (xs : List α) : (Slice.ofAppends xs).toList = xs := by
  simp [Slice.ofAppends, Slice.toList_foldl_append]

theorem Slice.foldl_append_mk (ys xs : List α) :
    xs.foldl Slice.append (Slice.mk ys) = Slice.mk (ys ++ xs) := by
  induction xs generalizing ys with
  | nil => simp
  | cons x xs ih => simp [Slice.append, Slice.toList, ih]

theorem Slice.ofAppends_nil : Slice.ofAppends ([] : List α) = Slice.nil := rfl

theorem Slice.ofAppends_cons (x : α) (xs : List α) :
    Slice.ofAppends (x :: xs) = Slice.mk (x :: xs) := by
  simp [Slice.ofAppends, Slice.append, Slice.toList, Slice.foldl_append_mk]

end SliceLemmas

section ResultLemmas

variable (db : DB)

theorem firstFailure_of_ok (eventID : Nat)
    (hok : (GetTimeSlotRecommendations db eventID).1.2 = none) :
    firstFailure db (traversal db eventID) = none := by
  rw [← result_error]; exact hok

theorem slotsRetrieved_of_ok (eventID : Nat) (slots : List TimeSlot)
    (hs : db.slotsOf eventID = .ok slots) : db.slotsRetrieved eventID = slots := by
  simp [DB.slotsRetrieved, hs]

theorem rowsRetrieved_of_ok (slotID : Nat) (rows : List Availability)
    (hr : db.rowsOf slotID = .ok rows) : db.rowsRetrieved slotID = rows := by
  simp [DB.rowsRetrieved, hr]

/-- On success the returned elements are the recommendations of the retrieved slots. -/
theorem result_toList_of_ok (eventID : Nat) (slots : List TimeSlot)
    (hok : (GetTimeSlotRecommendations db eventID).1.2 = none)
    (hs : db.slotsOf eventID = .ok slots) :
    (GetTimeSlotRecommendations db eventID).1.1.toList = slots.map (tallyOf db) := by
  rw [result_slice_of_ok db eventID (firstFailure_of_ok db eventID hok),
    Slice.toList_ofAppends, slotsRetrieved_of_ok db eventID slots hs]

/-- On success every lookup of the traversal was answered. -/
theorem answered_of_ok (eventID : Nat) (slots : List TimeSlot)
    (hok : (GetTimeSlotRecommendations db eventID).1.2 = none)
    (hs : db.slotsOf eventID = .ok slots) :
    ∀ s ∈ slots, ∃ rows, db.rowsOf s.ID = .ok rows ∧
      ∀ a ∈ rows, ∃ p, db.participantOf a.ParticipantID = .ok p := by
  obtain ⟨slots2, hs2, hall⟩ :=
    (traversal_ok_iff db eventID).1 (firstFailure_of_ok db eventID hok)
  rw [hs] at hs2
  cases hs2
  exact hall

theorem tallyOf_timeSlot (slot : TimeSlot) : (tallyOf db slot).TimeSlot = slot := rfl

/-- The recommendation of a slot whose availability query is answered with `rows`. -/
theorem tallyOf_of_rows (slot : TimeSlot) (rows : List Availability)
    (hr : db.rowsOf slot.ID = .ok rows) :
    tallyOf db slot =
      { TimeSlot := slot
        AvailableCount := ((rows.filter fun a => a.IsAvailable).length : Int)
        UnavailableCount := ((rows.filter fun a => !a.IsAvailable).length : Int)
        AvailableUsers := Slice.ofAppends (db.usersOf (rows.filter fun a => a.IsAvailable))
        UnavailableUsers := Slice.ofAppends (db.usersOf (rows.filter fun a => !a.IsAvailable)) } := by
  simp [tallyOf, tallied, rowsRetrieved_of_ok db slot.ID rows hr, TimeSlotRecommendation.zero,
    Slice.ofAppends]

theorem usersOf_map_ok (l : List Availability)
    (h : ∀ a ∈ l, ∃ p, db.participantOf a.ParticipantID = .ok p) :
    (db.usersOf l).map (fun p => (Except.ok p : Except GoError Participant)) =
      l.map fun a => db.participantOf a.ParticipantID := by
  induction l with
  | nil => rfl
  | cons a rest ih =>
    obtain ⟨p, hp⟩ := h a (List.mem_cons_self a rest)
    have ih2 := ih fun b hb => h b (List.mem_cons_of_mem a hb)
    have ho : (db.participantOf a.ParticipantID).toOption = some p := by
      rw [hp]; rfl
    simp only [DB.usersOf] at ih2 ⊢
    rw [List.filterMap_cons, ho, List.map_cons, List.map_cons, ih2, hp]

theorem usersOf_length (l : List Availability)
    (h : ∀ a ∈ l, ∃ p, db.participantOf a.ParticipantID = .ok p) :
    (db.usersOf l).length = l.length := by
  have := congrArg List.length (usersOf_map_ok db l h)
  simpa using this

theorem count_usersOf (l : List Availability) (pid : Nat) (p : Participant)
    (hp : db.participantOf pid = .ok p) :
    (l.filter fun a => a.ParticipantID == pid).length ≤ (db.usersOf l).count p := by
  induction l with
  | nil => simp
  | cons a rest ih =>
    simp only [DB.usersOf] at ih ⊢
    by_cases ha : a.ParticipantID = pid
    · subst ha
      have ho : (db.participantOf a.ParticipantID).toOption = some p := by
        rw [hp]; rfl
      rw [List.filterMap_cons, ho, List.filter_cons]
      simp only [beq_self_eq_true, if_true, List.length_cons, List.count_cons_self]
      omega
    · have hne : (a.ParticipantID == pid) = false := by simpa using ha
      rw [List.filter_cons, hne]
      refine le_trans ih ?_
      rw [List.filterMap_cons]
      cases (db.participantOf a.ParticipantID).toOption with
      | none => exact le_refl _
      | some q => simp only [List.count_cons]; omega

theorem filter_length_split (rows : List Availability) :
    (rows.filter fun a => a.IsAvailable).length + (rows.filter fun a => !a.IsAvailable).length
      = rows.length := by
  induction rows with
  | nil => rfl
  | cons a rest ih =>
    cases h : a.IsAvailable <;> simp [List.filter_cons, h] <;> omega

/-- A failing list of lookups splits at its first failing lookup. -/
theorem firstFailure_split (qs : List Query) (e : GoError) (h : firstFailure db qs = some e) :
    ∃ before q after, qs = before ++ q :: after ∧ (∀ x ∈ before, db.failure x = none) ∧
      db.failure q = some e ∧ untilFailure db qs = before ++ [q] := by
  induction qs with
  | nil => simp [firstFailure] at h
  | cons q rest ih =>
    rw [firstFailure_cons] at h
    cases hq : db.failure q with
    | some e2 =>
      rw [hq] at h
      simp only [Option.or, Option.some.injEq] at h
      subst h
      exact ⟨[], q, rest, rfl, by simp, hq, by simp [untilFailure, hq]⟩
    | none =>
      rw [hq] at h
      obtain ⟨before, q2, after, hsplit, hbefore, hq2, huntil⟩ := ih h
      refine ⟨q :: before, q2, after, by simp [hsplit], ?_, hq2, by simp [untilFailure, hq, huntil]⟩
      intro x hx
      rcases List.mem_cons.1 hx with rfl | hx
      · exact hq
      · exact hbefore x hx

end ResultLemmas

section BatchedLemmas

variable (db : DB)

theorem allRows_ok (slots : List TimeSlot) (sr : List (TimeSlot × List Availability))
    (h : allRows db slots = .ok sr) :
    sr = slots.map (fun s => (s, db.rowsRetrieved s.ID)) ∧
      ∀ s ∈ slots, ∃ rows, db.rowsOf s.ID = .ok rows := by
  induction slots generalizing sr with
  | nil =>
    simp only [allRows, Except.ok.injEq] at h
    subst h
    simp
  | cons s rest ih =>
    unfold allRows at h
    cases hr : db.rowsOf s.ID with
    | error e => simp [hr] at h
    | ok rows =>
      cases hrest : allRows db rest with
      | error e => simp [hr, hrest] at h
      | ok more =>
        simp only [hr, hrest, Except.ok.injEq] at h
        obtain ⟨hmore, hall⟩ := ih more hrest
        subst h
        refine ⟨by simp [hmore, rowsRetrieved_of_ok db s.ID rows hr], ?_⟩
        intro x hx
        rcases List.mem_cons.1 hx with rfl | hx
        · exact ⟨rows, hr⟩
        · exact hall x hx

theorem allRows_error (slots : List TimeSlot) (e : GoError) (h : allRows db slots = .error e) :
    ∃ s ∈ slots, ∃ err, db.rowsOf s.ID = .error err := by
  induction slots generalizing e with
  | nil => simp [allRows] at h
  | cons s rest ih =>
    unfold allRows at h
    cases hr : db.rowsOf s.ID with
    | error e2 => exact ⟨s, List.mem_cons_self s rest, e2, hr⟩
    | ok rows =>
      cases hrest : allRows db rest with
      | error e2 =>
        obtain ⟨x, hx, hbad⟩ := ih e2 hrest
        exact ⟨x, List.mem_cons_of_mem s hx, hbad⟩
      | ok more => simp [hr, hrest] at h

theorem fetchParticipants_ok (ids : List Nat) (ps : List Participant)
    (h : fetchParticipants db ids = .ok ps) :
    List.Forall₂ (fun id p => db.participantOf id = .ok p) ids ps := by
  induction ids generalizing ps with
  | nil =>
    simp only [fetchParticipants, Except.ok.injEq] at h
    subst h
    exact List.Forall₂.nil
  | cons id rest ih =>
    unfold fetchParticipants at h
    cases hp : db.participantOf id with
    | error e => simp [hp] at h
    | ok p =>
      cases hrest : fetchParticipants db rest with
      | error e => simp [hp, hrest] at h
      | ok more =>
        simp only [hp, hrest, Except.ok.injEq] at h
        subst h
        exact List.Forall₂.cons hp (ih more hrest)

theorem fetchParticipants_error (ids : List Nat) (e : GoError)
    (h : fetchParticipants db ids = .error e) :
    ∃ id ∈ ids, ∃ err, db.participantOf id = .error err := by
  induction ids generalizing e with
  | nil => simp [fetchParticipants] at h
  | cons id rest ih =>
    unfold fetchParticipants at h
    cases hp : db.participantOf id with
    | error e2 => exact ⟨id, List.mem_cons_self id rest, e2, hp⟩
    | ok p =>
      cases hrest : fetchParticipants db rest with
      | error e2 =>
        obtain ⟨x, hx, hbad⟩ := ih e2 hrest
        exact ⟨x, List.mem_cons_of_mem id hx, hbad⟩
      | ok more => simp [hp, hrest] at h

theorem mem_referencedIDs (slots : List TimeSlot) (id : Nat) :
    id ∈ referencedIDs (slots.map fun s => (s, db.rowsRetrieved s.ID)) ↔
      ∃ s ∈ slots, ∃ a ∈ db.rowsRetrieved s.ID, a.ParticipantID = id := by
  simp only [referencedIDs, List.mem_dedup, List.mem_map, List.mem_flatMap]
  constructor
  · rintro ⟨a, ⟨sr, ⟨s, hs, rfl⟩, ha⟩, rfl⟩
    exact ⟨s, hs, a, ha, rfl⟩
  · rintro ⟨s, hs, a, ha, rfl⟩
    exact ⟨a, ⟨_, ⟨s, hs, rfl⟩, ha⟩, rfl⟩

theorem fetched_answers (ids : List Nat) (ps : List Participant)
    (hf : List.Forall₂ (fun id p => db.participantOf id = .ok p) ids ps)
    (id0 : Nat) (hmem : id0 ∈ ids) : ∃ p, db.participantOf id0 = .ok p := by
  induction hf with
  | nil => simp at hmem
  | @cons id p ids2 ps2 hhead _ ih =>
    rcases List.mem_cons.1 hmem with h | h
    · exact ⟨p, h ▸ hhead⟩
    · exact ih h

/-- The in-memory lookup by id finds what the lookup in the database is answered with. -/
theorem find_fetched (hkey : ∀ id p, db.participantOf id = .ok p → p.ID = id)
    (ids : List Nat) (ps : List Participant)
    (hf : List.Forall₂ (fun id p => db.participantOf id = .ok p) ids ps)
    (id0 : Nat) (p0 : Participant) (hmem : id0 ∈ ids) (hp0 : db.participantOf id0 = .ok p0) :
    ps.find? (fun p => p.ID == id0) = some p0 := by
  induction hf with
  | nil => simp at hmem
  | @cons id p ids2 ps2 hhead _ ih =>
    have hid := hkey id p hhead
    by_cases heq : id = id0
    · subst heq
      rw [hhead] at hp0
      cases hp0
      simp [List.find?_cons, hid]
    · have hne : (p.ID == id0) = false := by
        rw [hid]; simpa using heq
      rw [List.find?_cons, hne]
      apply ih
      rcases List.mem_cons.1 hmem with h | h
      · exact absurd h.symm heq
      · exact h

theorem joinRows_eq (fetched : List Participant) (rows : List Availability)
    (r : TimeSlotRecommendation)
    (h : ∀ a ∈ rows, ∃ p, db.participantOf a.ParticipantID = .ok p ∧
      fetched.find? (fun q => q.ID == a.ParticipantID) = some p) :
    joinRows fetched rows r = some (tallied db rows r) := by
  induction rows generalizing r with
  | nil => simp [joinRows, tallied, DB.usersOf]
  | cons a rest ih =>
    obtain ⟨p, hp, hfind⟩ := h a (List.mem_cons_self a rest)
    have ih2 := fun r2 => ih r2 fun b hb => h b (List.mem_cons_of_mem a hb)
    unfold joinRows
    cases hflag : a.IsAvailable <;>
      simp [hfind, ih2, tallied, DB.usersOf, hflag, hp, Except.toOption, add_assoc,
        add_comm (1 : Int)]

theorem joinAll_eq (fetched : List Participant) (slots : List TimeSlot)
    (h : ∀ s ∈ slots, ∀ a ∈ db.rowsRetrieved s.ID, ∃ p,
      db.participantOf a.ParticipantID = .ok p ∧
      fetched.find? (fun q => q.ID == a.ParticipantID) = some p) :
    joinAll fetched (slots.map fun s => (s, db.rowsRetrieved s.ID)) =
      some (slots.map (tallyOf db)) := by
  induction slots with
  | nil => rfl
  | cons s rest ih =>
    have ih2 := ih fun x hx => h x (List.mem_cons_of_mem s hx)
    simp only [List.map_cons, joinAll, ih2]
    rw [joinRows_eq db fetched _ _ (h s (List.mem_cons_self s rest))]
    rfl

/-- The batched variant, in closed form, under the condition that a lookup by id answers a
participant with that id. -/
theorem batchedRecommendations_eq
    (hkey : ∀ id p, db.participantOf id = .ok p → p.ID = id) (eventID : Nat) :
    (firstFailure db (traversal db eventID) = none →
      batchedRecommendations db eventID =
        (Slice.ofAppends ((db.slotsRetrieved eventID).map (tallyOf db)), none)) ∧
    (firstFailure db (traversal db eventID) ≠ none →
      ∃ err, batchedRecommendations db eventID = (Slice.nil, some err)) := by
  have key : ∀ slots sr ps, db.slotsOf eventID = .ok slots → allRows db slots = .ok sr →
      fetchParticipants db (referencedIDs sr) = .ok ps →
      firstFailure db (traversal db eventID) = none ∧
        joinAll ps sr = some (slots.map (tallyOf db)) := by
    intro slots sr ps hs hsr hps
    obtain ⟨hsr2, hans⟩ := allRows_ok db slots sr hsr
    subst hsr2
    have hf := fetchParticipants_ok db _ ps hps
    have hres : ∀ s ∈ slots, ∀ a ∈ db.rowsRetrieved s.ID, ∃ p,
        db.participantOf a.ParticipantID = .ok p ∧
        ps.find? (fun q => q.ID == a.ParticipantID) = some p := by
      intro s hmem a ha
      have hid : a.ParticipantID ∈
          referencedIDs (slots.map fun s => (s, db.rowsRetrieved s.ID)) :=
        (mem_referencedIDs db slots a.ParticipantID).2 ⟨s, hmem, a, ha, rfl⟩
      obtain ⟨p, hp⟩ := fetched_answers db _ ps hf a.ParticipantID hid
      exact ⟨p, hp, find_fetched db hkey _ ps hf a.ParticipantID p hid hp⟩
    refine ⟨?_, joinAll_eq db ps slots hres⟩
    rw [traversal_ok_iff]
    refine ⟨slots, hs, fun s hmem => ?_⟩
    obtain ⟨rows, hr⟩ := hans s hmem
    refine ⟨rows, hr, fun a ha => ?_⟩
    rw [← rowsRetrieved_of_ok db s.ID rows hr] at ha
    obtain ⟨p, hp, _⟩ := hres s hmem a ha
    exact ⟨p, hp⟩
  constructor
  · intro hnone
    obtain ⟨slots, hs, hall⟩ := (traversal_ok_iff db eventID).1 hnone
    unfold batchedRecommendations
    rw [slotsRetrieved_of_ok db eventID slots hs]
    simp only [hs]
    cases hsr : allRows db slots with
    | error e =>
      obtain ⟨s, hmem, e2, hbad⟩ := allRows_error db slots e hsr
      obtain ⟨rows, hr, _⟩ := hall s hmem
      rw [hr] at hbad; cases hbad
    | ok sr =>
      simp only
      cases hps : fetchParticipants db (referencedIDs sr) with
      | error e =>
        obtain ⟨id, hid, e2, hbad⟩ := fetchParticipants_error db _ e hps
        rw [(allRows_ok db slots sr hsr).1] at hid
        obtain ⟨s, hmem, a, ha, rfl⟩ := (mem_referencedIDs db slots id).1 hid
        obtain ⟨rows, hr, hp⟩ := hall s hmem
        rw [rowsRetrieved_of_ok db s.ID rows hr] at ha
        obtain ⟨p, hpa⟩ := hp a ha
        rw [hpa] at hbad; cases hbad
      | ok ps =>
        simp only [(key slots sr ps hs hsr hps).2]
  · intro hsome
    unfold batchedRecommendations
    cases hs : db.slotsOf eventID with
    | error e => exact ⟨e, rfl⟩
    | ok slots =>
      simp only
      cases hsr : allRows db slots with
      | error e => exact ⟨e, rfl⟩
      | ok sr =>
        simp only
        cases hps : fetchParticipants db (referencedIDs sr) with
        | error e => exact ⟨e, rfl⟩
        | ok ps => exact absurd (key slots sr ps hs hsr hps).1 hsome

theorem tableEngine_key (st : Store) (id : Nat) (p : Participant)
    (h : tableEngine.firstParticipant st id = .ok p) : p.ID = id := by
  simp only [tableEngine] at h
  cases hfind : st.participants.find? (fun q => q.ID == id && q.DeletedAt.isNone) with
  | none => simp [hfind] at h
  | some q =>
    simp only [hfind, Except.ok.injEq] at h
    subst h
    have := List.find?_some hfind
    simp only [Bool.and_eq_true, beq_iff_eq] at this
    exact this.1

end BatchedLemmas

/-! ## Properties of the aggregation -/

/-- C1: when `GetTimeSlotRecommendations` succeeds, the slot query was answered with a list
of slots, the result has exactly as many recommendations as that list has slots, and the
recommendation at every index carries the slot retrieved at that index. -/
theorem recommendations_follow_slots (db : DB) (eventID : Nat)
    (hok : (GetTimeSlotRecommendations db eventID).1.2 = none) :
    ∃ slots, db.slotsOf eventID = .ok slots ∧
      (GetTimeSlotRecommendations db eventID).1.1.toList.length = slots.length ∧
      (∀ i : Nat, ((GetTimeSlotRecommendations db eventID).1.1.toList[i]?).map
          (fun r : TimeSlotRecommendation => r.TimeSlot) = slots[i]?) ∧
      (GetTimeSlotRecommendations db eventID).1.1.toList.map (fun r => r.TimeSlot) = slots := by
  obtain ⟨slots, hs, _⟩ :=
    (traversal_ok_iff db eventID).1 (firstFailure_of_ok db eventID hok)
  have hmap : (GetTimeSlotRecommendations db eventID).1.1.toList.map (fun r => r.TimeSlot)
      = slots := by
    rw [result_toList_of_ok db eventID slots hok hs, List.map_map]
    exact List.map_id slots
  refine ⟨slots, hs, ?_, ?_, hmap⟩
  · rw [← hmap, List.length_map]
  · intro i
    rw [← List.getElem?_map, hmap]

/-- C1 at the scenario tables: the two recommendations carry S1 and S2, in that order. -/
theorem recommendations_follow_slots_witness :
    (GetTimeSlotRecommendations scenarioDB 1).1.2 = none ∧
    ∃ slots, scenarioDB.slotsOf 1 = .ok slots ∧
      (GetTimeSlotRecommendations scenarioDB 1).1.1.toList.length = slots.length ∧
      (∀ i : Nat, ((GetTimeSlotRecommendations scenarioDB 1).1.1.toList[i]?).map
          (fun r : TimeSlotRecommendation => r.TimeSlot) = slots[i]?) ∧
      (GetTimeSlotRecommendations scenarioDB 1).1.1.toList.map (fun r => r.TimeSlot) = slots :=
  ⟨by decide, recommendations_follow_slots scenarioDB 1 (by decide)⟩

/-- C2: on a successful run, for every retrieved slot, the recommendation at the slot's
index has `AvailableCount` equal to the number of the slot's rows with `IsAvailable = true`
and `AvailableUsers` equal to the participants the lookups of those rows' `ParticipantID`
are answered with, in the order of the rows; `UnavailableCount` and `UnavailableUsers` are
the same for the rows with `IsAvailable = false`. -/
theorem tallies_partition_rows (db : DB) (eventID : Nat) (slots : List TimeSlot)
    (hok : (GetTimeSlotRecommendations db eventID).1.2 = none)
    (hs : db.slotsOf eventID = .ok slots) (i : Nat) (slot : TimeSlot)
    (hi : slots[i]? = some slot) :
    ∃ rows r, db.rowsOf slot.ID = .ok rows ∧
      (GetTimeSlotRecommendations db eventID).1.1.toList[i]? = some r ∧
      r.AvailableCount = ((rows.filter fun a => a.IsAvailable).length : Int) ∧
      r.AvailableUsers.toList.map (fun p => (Except.ok p : Except GoError Participant)) =
        (rows.filter fun a => a.IsAvailable).map (fun a => db.participantOf a.ParticipantID) ∧
      r.UnavailableCount = ((rows.filter fun a => !a.IsAvailable).length : Int) ∧
      r.UnavailableUsers.toList.map (fun p => (Except.ok p : Except GoError Participant)) =
        (rows.filter fun a => !a.IsAvailable).map
          (fun a => db.participantOf a.ParticipantID) := by
  obtain ⟨rows, hr, hp⟩ := answered_of_ok db eventID slots hok hs slot (List.getElem?_mem hi)
  refine ⟨rows, tallyOf db slot, hr, ?_, ?_⟩
  · rw [result_toList_of_ok db eventID slots hok hs, List.getElem?_map, hi]
    rfl
  · rw [tallyOf_of_rows db slot rows hr]
    refine ⟨rfl, ?_, rfl, ?_⟩
    · simp only [Slice.toList_ofAppends]
      exact usersOf_map_ok db _ fun a ha => hp a (List.mem_of_mem_filter ha)
    · simp only [Slice.toList_ofAppends]
      exact usersOf_map_ok db _ fun a ha => hp a (List.mem_of_mem_filter ha)

/-- C2 at the scenario tables, for slot S1 at index 0. -/
theorem tallies_partition_rows_witness :
    ∃ rows r, scenarioDB.rowsOf slotS1.ID = .ok rows ∧
      (GetTimeSlotRecommendations scenarioDB 1).1.1.toList[0]? = some r ∧
      r.AvailableCount = ((rows.filter fun a => a.IsAvailable).length : Int) ∧
      r.AvailableUsers.toList.map (fun p => (Except.ok p : Except GoError Participant)) =
        (rows.filter fun a => a.IsAvailable).map
          (fun a => scenarioDB.participantOf a.ParticipantID) ∧
      r.UnavailableCount = ((rows.filter fun a => !a.IsAvailable).length : Int) ∧
      r.UnavailableUsers.toList.map (fun p => (Except.ok p : Except GoError Participant)) =
        (rows.filter fun a => !a.IsAvailable).map
          (fun a => scenarioDB.participantOf a.ParticipantID) :=
  tallies_partition_rows scenarioDB 1 [slotS1, slotS2] (by decide) rfl 0 slotS1 rfl

/-- C3: on a successful run, every returned recommendation belongs to the slot retrieved at
its index, and its `AvailableCount + UnavailableCount` equals the number of availability
rows retrieved for that slot.  Nothing is de-duplicated: the two lists together have one
entry per row, and a participant has at least as many entries in a list as there are rows
of that kind with that participant's id. -/
theorem counts_add_up (db : DB) (eventID : Nat) (slots : List TimeSlot)
    (hok : (GetTimeSlotRecommendations db eventID).1.2 = none)
    (hs : db.slotsOf eventID = .ok slots) (i : Nat) (r : TimeSlotRecommendation)
    (hi : (GetTimeSlotRecommendations db eventID).1.1.toList[i]? = some r) :
    ∃ slot rows, slots[i]? = some slot ∧ db.rowsOf slot.ID = .ok rows ∧
      r.AvailableCount + r.UnavailableCount = (rows.length : Int) ∧
      r.AvailableUsers.toList.length + r.UnavailableUsers.toList.length = rows.length ∧
      ∀ pid p, db.participantOf pid = .ok p →
        (rows.filter fun a => a.ParticipantID == pid && a.IsAvailable).length
          ≤ r.AvailableUsers.toList.count p ∧
        (rows.filter fun a => a.ParticipantID == pid && !a.IsAvailable).length
          ≤ r.UnavailableUsers.toList.count p := by
  rw [result_toList_of_ok db eventID slots hok hs, List.getElem?_map] at hi
  cases hslot : slots[i]? with
  | none => simp [hslot] at hi
  | some slot =>
    rw [hslot] at hi
    simp only [Option.map_some', Option.some.injEq] at hi
    obtain ⟨rows, hr, hp⟩ :=
      answered_of_ok db eventID slots hok hs slot (List.getElem?_mem hslot)
    refine ⟨slot, rows, rfl, hr, ?_⟩
    rw [← hi, tallyOf_of_rows db slot rows hr]
    have hsplit := filter_length_split rows
    refine ⟨?_, ?_, fun pid p hpid => ⟨?_, ?_⟩⟩
    · simp only
      exact_mod_cast hsplit
    · simp only [Slice.toList_ofAppends]
      rw [usersOf_length db _ fun a ha => hp a (List.mem_of_mem_filter ha),
        usersOf_length db _ fun a ha => hp a (List.mem_of_mem_filter ha)]
      exact hsplit
    · simp only [Slice.toList_ofAppends]
      refine le_trans (le_of_eq ?_) (count_usersOf db _ pid p hpid)
      rw [List.filter_filter]
    · simp only [Slice.toList_ofAppends]
      refine le_trans (le_of_eq ?_) (count_usersOf db _ pid p hpid)
      rw [List.filter_filter]

/-- C3 at the tables where A's submission for S1 is stored three times: the three rows
count three and give three entries for A. -/
theorem counts_add_up_witness :
    ∃ slot rows, [slotS1, slotS2][0]? = some slot ∧ repeatedDB.rowsOf slot.ID = .ok rows ∧
      (3 : Int) + 0 = (rows.length : Int) ∧
      [participantA, participantA, participantA].length + ([] : List Participant).length
        = rows.length ∧
      ∀ pid p, repeatedDB.participantOf pid = .ok p →
        (rows.filter fun a => a.ParticipantID == pid && a.IsAvailable).length
          ≤ [participantA, participantA, participantA].count p ∧
        (rows.filter fun a => a.ParticipantID == pid && !a.IsAvailable).length
          ≤ ([] : List Participant).count p :=
  counts_add_up repeatedDB 1 [slotS1, slotS2] (by decide) rfl 0
    ⟨slotS1, 3, 0, Slice.mk [participantA, participantA, participantA], Slice.nil⟩ (by decide)

/-- C7: on a successful run, a retrieved slot whose availability query is answered with zero
rows is still present at its index, with both counts 0 and both participant lists nil
(hence empty). -/
theorem slot_without_rows (db : DB) (eventID : Nat) (slots : List TimeSlot)
    (hok : (GetTimeSlotRecommendations db eventID).1.2 = none)
    (hs : db.slotsOf eventID = .ok slots) (i : Nat) (slot : TimeSlot)
    (hi : slots[i]? = some slot) (hrows : db.rowsOf slot.ID = .ok []) :
    ∃ r, (GetTimeSlotRecommendations db eventID).1.1.toList[i]? = some r ∧
      r.TimeSlot = slot ∧ r.AvailableCount = 0 ∧ r.UnavailableCount = 0 ∧
      r.AvailableUsers = Slice.nil ∧ r.UnavailableUsers = Slice.nil ∧
      r.AvailableUsers.toList = [] ∧ r.UnavailableUsers.toList = [] := by
  refine ⟨tallyOf db slot, ?_, ?_⟩
  · rw [result_toList_of_ok db eventID slots hok hs, List.getElem?_map, hi]
    rfl
  · rw [tallyOf_of_rows db slot [] hrows]
    exact ⟨rfl, rfl, rfl, rfl, rfl, rfl, rfl⟩

/-- C7 at the tables where S2, at index 1, has no rows. -/
theorem slot_without_rows_witness :
    ∃ r, (GetTimeSlotRecommendations sparseDB 1).1.1.toList[1]? = some r ∧
      r.TimeSlot = slotS2 ∧ r.AvailableCount = 0 ∧ r.UnavailableCount = 0 ∧
      r.AvailableUsers = Slice.nil ∧ r.UnavailableUsers = Slice.nil ∧
      r.AvailableUsers.toList = [] ∧ r.UnavailableUsers.toList = [] :=
  slot_without_rows sparseDB 1 [slotS1, slotS2] (by decide) rfl 1 slotS2 rfl rfl

/-- C5: whenever `GetTimeSlotRecommendations` fails it returns the nil slice, and its error
is the error of the first failing lookup in traversal order (slot query, then per slot its
availability query, then its rows in order): every lookup before that one was answered and
no lookup after it is issued. -/
theorem failure_returns_nil_and_first_error (db : DB) (eventID : Nat)
    (hfail : (GetTimeSlotRecommendations db eventID).1.2 ≠ none) :
    (GetTimeSlotRecommendations db eventID).1.1 = Slice.nil ∧
    ∃ before q after err, traversal db eventID = before ++ q :: after ∧
      (∀ x ∈ before, db.failure x = none) ∧ db.failure q = some err ∧
      (GetTimeSlotRecommendations db eventID).1.2 = some err ∧
      (GetTimeSlotRecommendations db eventID).2.log = db.log ++ (before ++ [q]) := by
  rw [result_error] at hfail
  obtain ⟨err, herr⟩ := Option.ne_none_iff_exists'.1 hfail
  obtain ⟨before, q, after, hsplit, hbefore, hq, huntil⟩ :=
    firstFailure_split db (traversal db eventID) err herr
  refine ⟨result_slice_of_error db eventID err herr, before, q, after, err, hsplit, hbefore, hq,
    ?_, ?_⟩
  · rw [result_error, herr]
  · rw [result_handle, huntil]
    rfl

/-- C5 at the tables with the dangling row: the lookup of participant 9 on the last row of
the last slot fails, and the recommendation built for S1 is not returned. -/
theorem failure_returns_nil_and_first_error_witness :
    (GetTimeSlotRecommendations danglingDB 1).1.2 = some ErrRecordNotFound ∧
    traversal danglingDB 1 =
      [Query.timeSlots 1, Query.availabilities 1, Query.participant 1, Query.participant 2,
        Query.availabilities 2, Query.participant 1, Query.participant 9] ∧
    (GetTimeSlotRecommendations danglingDB 1).1.1 = Slice.nil ∧
    ∃ before q after err, traversal danglingDB 1 = before ++ q :: after ∧
      (∀ x ∈ before, danglingDB.failure x = none) ∧ danglingDB.failure q = some err ∧
      (GetTimeSlotRecommendations danglingDB 1).1.2 = some err ∧
      (GetTimeSlotRecommendations danglingDB 1).2.log = danglingDB.log ++ (before ++ [q]) :=
  ⟨by decide, by decide, failure_returns_nil_and_first_error danglingDB 1 (by decide)⟩

/-- C8: in every database where event `E` has the slots `[S1, S2]` in that retrieval order,
the rows of `S1` are one of `A` and one of `B`, both available, the only row of `S2` is one
of `A`, unavailable, and `A` and `B` can be looked up, the aggregation returns exactly the
two recommendations of the scenario. -/
theorem scenario_result (db : DB) (E : Nat) (S1 S2 : TimeSlot) (A B : Participant)
    (a1 a2 a3 : Availability)
    (hslots : db.slotsOf E = .ok [S1, S2])
    (hrows1 : db.rowsOf S1.ID = .ok [a1, a2]) (hrows2 : db.rowsOf S2.ID = .ok [a3])
    (h1 : a1.ParticipantID = A.ID ∧ a1.IsAvailable = true)
    (h2 : a2.ParticipantID = B.ID ∧ a2.IsAvailable = true)
    (h3 : a3.ParticipantID = A.ID ∧ a3.IsAvailable = false)
    (hA : db.participantOf A.ID = .ok A) (hB : db.participantOf B.ID = .ok B) :
    (GetTimeSlotRecommendations db E).1 =
      (Slice.mk [⟨S1, 2, 0, Slice.mk [A, B], Slice.nil⟩, ⟨S2, 0, 1, Slice.nil, Slice.mk [A]⟩],
        none) := by
  obtain ⟨h1p, h1a⟩ := h1
  obtain ⟨h2p, h2a⟩ := h2
  obtain ⟨h3p, h3a⟩ := h3
  simp [GetTimeSlotRecommendations, DB.FindTimeSlots, hslots, slotLoop, DB.FindAvailabilities,
    hrows1, hrows2, countLoop, DB.FirstParticipant, h1p, h1a, h2p, h2a, h3p, h3a, hA, hB,
    Slice.append, TimeSlotRecommendation.zero]

/-- C8 at the scenario tables. -/
theorem scenario_result_witness :
    (GetTimeSlotRecommendations scenarioDB 1).1 =
      (Slice.mk [⟨slotS1, 2, 0, Slice.mk [participantA, participantB], Slice.nil⟩,
                 ⟨slotS2, 0, 1, Slice.nil, Slice.mk [participantA]⟩], none) :=
  scenario_result scenarioDB 1 slotS1 slotS2 participantA participantB
    ⟨1, 1, 1, true, 0, 0, none⟩ ⟨3, 2, 1, true, 0, 0, none⟩ ⟨2, 1, 2, false, 0, 0, none⟩
    rfl rfl rfl ⟨rfl, rfl⟩ ⟨rfl, rfl⟩ ⟨rfl, rfl⟩ rfl rfl

/-- C9: in every database where a lookup by id answers a participant with that id, the
batched variant (all slots and rows first, one fetch of the referenced participants, then an
in-memory join) returns the same slice as `GetTimeSlotRecommendations`, fails in exactly the
same cases, and on success returns the same pair. -/
theorem batched_same_output (db : DB) (eventID : Nat)
    (hkey : ∀ id p, db.participantOf id = .ok p → p.ID = id) :
    (batchedRecommendations db eventID).1 = (GetTimeSlotRecommendations db eventID).1.1 ∧
    ((batchedRecommendations db eventID).2 = none ↔
      (GetTimeSlotRecommendations db eventID).1.2 = none) ∧
    ((GetTimeSlotRecommendations db eventID).1.2 = none →
      batchedRecommendations db eventID = (GetTimeSlotRecommendations db eventID).1) := by
  obtain ⟨hnone, hsome⟩ := batchedRecommendations_eq db hkey eventID
  cases hf : firstFailure db (traversal db eventID) with
  | none =>
    have hb := hnone hf
    have hg : (GetTimeSlotRecommendations db eventID).1 =
        (Slice.ofAppends ((db.slotsRetrieved eventID).map (tallyOf db)), none) := by
      rw [GetTimeSlotRecommendations_eq, hf]
    rw [hb, hg]
    exact ⟨rfl, Iff.rfl, fun _ => rfl⟩
  | some e =>
    obtain ⟨err, hb⟩ := hsome (by rw [hf]; simp)
    have hg : (GetTimeSlotRecommendations db eventID).1 = (Slice.nil, some e) := by
      rw [GetTimeSlotRecommendations_eq, hf]
    rw [hb, hg]
    refine ⟨rfl, ?_, ?_⟩ <;> simp

/-- C9 at the scenario tables, where both return the two recommendations. -/
theorem batched_same_output_witness :
    (batchedRecommendations scenarioDB 1).1 = (GetTimeSlotRecommendations scenarioDB 1).1.1 ∧
    ((batchedRecommendations scenarioDB 1).2 = none ↔
      (GetTimeSlotRecommendations scenarioDB 1).1.2 = none) ∧
    ((GetTimeSlotRecommendations scenarioDB 1).1.2 = none →
      batchedRecommendations scenarioDB 1 = (GetTimeSlotRecommendations scenarioDB 1).1) :=
  batched_same_output scenarioDB 1 (tableEngine_key scenarioStore)

/-- C4: `GetTimeSlotRecommendations` returns an error if and only if the slot query fails,
or the availability query fails for a retrieved slot, or the participant lookup fails for
an availability row of a retrieved slot. -/
theorem error_iff_some_lookup_fails (db : DB) (eventID : Nat) :
    (GetTimeSlotRecommendations db eventID).1.2 ≠ none ↔
      (∃ err, db.slotsOf eventID = .error err) ∨
      ∃ slots, db.slotsOf eventID = .ok slots ∧ ∃ s ∈ slots,
        (∃ err, db.rowsOf s.ID = .error err) ∨
        ∃ rows, db.rowsOf s.ID = .ok rows ∧ ∃ a ∈ rows, ∃ err,
          db.participantOf a.ParticipantID = .error err := by
  rw [result_error, Ne, traversal_ok_iff]
  constructor
  · intro h
    cases hs : db.slotsOf eventID with
    | error e => exact Or.inl ⟨e, rfl⟩
    | ok slots =>
      refine Or.inr ⟨slots, rfl, ?_⟩
      by_contra hno
      apply h
      refine ⟨slots, hs, fun s hmem => ?_⟩
      cases hr : db.rowsOf s.ID with
      | error e => exact absurd ⟨s, hmem, Or.inl ⟨e, hr⟩⟩ hno
      | ok rows =>
        refine ⟨rows, rfl, fun a ha => ?_⟩
        cases hp : db.participantOf a.ParticipantID with
        | error e => exact absurd ⟨s, hmem, Or.inr ⟨rows, hr, a, ha, e, hp⟩⟩ hno
        | ok p => exact ⟨p, rfl⟩
  · rintro h ⟨slots, hs, hall⟩
    rcases h with ⟨e, he⟩ | ⟨slots2, hs2, s, hmem, hbad⟩
    · rw [hs] at he; cases he
    · rw [hs] at hs2
      cases hs2
      obtain ⟨rows, hr, hp⟩ := hall s hmem
      rcases hbad with ⟨e, he⟩ | ⟨rows2, hr2, a, ha, e, he⟩
      · rw [hr] at he; cases he
      · rw [hr] at hr2
        cases hr2
        obtain ⟨p, hpa⟩ := hp a ha
        rw [hpa] at he; cases he

/-- C6: when the slot query is answered with zero time slots, the result is the nil slice,
which has no elements, with a nil error, and the slot query is the only statement issued. -/
theorem no_slots_gives_empty (db : DB) (eventID : Nat) (hs : db.slotsOf eventID = .ok []) :
    (GetTimeSlotRecommendations db eventID).1 = (Slice.nil, none) ∧
    (GetTimeSlotRecommendations db eventID).1.1.toList = [] ∧
    (GetTimeSlotRecommendations db eventID).2.log = db.log ++ [Query.timeSlots eventID] := by
  have h : GetTimeSlotRecommendations db eventID =
      ((Slice.nil, none), db.issued (Query.timeSlots eventID)) := by
    simp [GetTimeSlotRecommendations, DB.FindTimeSlots, hs, slotLoop]
  rw [h]
  exact ⟨rfl, rfl, rfl⟩

/-- C6 at an event of the scenario tables that has no slots. -/
theorem no_slots_gives_empty_witness :
    scenarioDB.slotsOf emptyEventID = .ok [] ∧
    (GetTimeSlotRecommendations scenarioDB emptyEventID).1 = (Slice.nil, none) ∧
    (GetTimeSlotRecommendations scenarioDB emptyEventID).1.1.toList = [] ∧
    (GetTimeSlotRecommendations scenarioDB emptyEventID).2.log =
      scenarioDB.log ++ [Query.timeSlots emptyEventID] :=
  ⟨rfl, no_slots_gives_empty scenarioDB emptyEventID rfl⟩

/-- C10: `GetTimeSlotRecommendations` leaves the stored tables (events, time slots,
participants, availability rows) as they were, whether it succeeds or fails; all it does to
the handle is issue `SELECT` statements. -/
theorem storage_unchanged (db : DB) (eventID : Nat) :
    (GetTimeSlotRecommendations db eventID).2.store = db.store ∧
    (GetTimeSlotRecommendations db eventID).2.engine = db.engine ∧
    ∃ selects, (GetTimeSlotRecommendations db eventID).2.log = db.log ++ selects := by
  rw [result_handle]
  exact ⟨rfl, rfl, _, rfl⟩

/-! ## Helper lemmas for the handlers -/

section HandlerLemmas

theorem Marshal_of_renders (payload : Payload) (h : payload.renders = true) :
    Marshal payload = .ok payload.toJSON := by
  rw [Marshal, if_pos h]

theorem Marshal_of_not_renders (payload : Payload) (h : payload.renders = false) :
    Marshal payload = .error ErrTimeRange := by
  rw [Marshal, if_neg (by rw [h]; exact Bool.false_ne_true)]

/-- The response for a payload that `json.Marshal` renders. -/
theorem respondWithJSON_of_renders (code : Nat) (payload : Payload)
    (h : payload.renders = true) :
    respondWithJSON code payload =
      { status := code, contentType := some "application/json",
        body := some payload.toJSON } := by
  rw [respondWithJSON, Marshal_of_renders _ h]

/-- The response for a payload that `json.Marshal` does not render. -/
theorem respondWithJSON_of_not_renders (code : Nat) (payload : Payload)
    (h : payload.renders = false) :
    respondWithJSON code payload =
      { status := 500, contentType := none,
        body := some (Json.obj [("error", Json.str "Internal Server Error")]) } := by
  rw [respondWithJSON, Marshal_of_not_renders _ h]

theorem respondWithError_eq (code : Nat) (message : String) :
    respondWithError code message =
      { status := code, contentType := some "application/json",
        body := some (Json.obj [("error", Json.str message)]) } :=
  respondWithJSON_of_renders code (Payload.stringMap "error" message) rfl

theorem respondWithJSON_status (code : Nat) (payload : Payload) :
    (respondWithJSON code payload).status = if payload.renders then code else 500 := by
  cases h : payload.renders
  · rw [respondWithJSON_of_not_renders _ _ h]; rfl
  · rw [respondWithJSON_of_renders _ _ h]; rfl

theorem sliceJSON_mk {α : Type} (enc : α → Json) (xs : List α) :
    sliceJSON enc (Slice.mk xs) = Json.arr (xs.map enc) := rfl

theorem sliceJSON_nil {α : Type} (enc : α → Json) :
    sliceJSON enc (Slice.nil : Slice α) = Json.null := rfl

theorem respondWithJSON_recommendations (code : Nat) (recs : Slice TimeSlotRecommendation)
    (h : recs.toList.all TimeSlotRecommendation.renders = true) :
    respondWithJSON code (Payload.recommendations recs) =
      { status := code, contentType := some "application/json",
        body := some (sliceJSON TimeSlotRecommendation.toJSON recs) } :=
  respondWithJSON_of_renders code (Payload.recommendations recs) h

/-- The keys of the JSON object of a recommendation. -/
theorem TimeSlotRecommendation.keys_toJSON (r : TimeSlotRecommendation) :
    r.toJSON.keys =
      ["time_slot", "available_count", "unavailable_count"]
        ++ (if r.AvailableUsers.toList.isEmpty then [] else ["available_users"])
        ++ (if r.UnavailableUsers.toList.isEmpty then [] else ["unavailable_users"]) := by
  simp only [TimeSlotRecommendation.toJSON, Json.keys, omitEmptySlice]
  cases r.AvailableUsers.toList.isEmpty <;> cases r.UnavailableUsers.toList.isEmpty <;> rfl

/-- On success the users lists have as many elements as the counts say. -/
theorem tallyOf_lengths (db : DB) (slot : TimeSlot) (rows : List Availability)
    (hr : db.rowsOf slot.ID = .ok rows)
    (hp : ∀ a ∈ rows, ∃ p, db.participantOf a.ParticipantID = .ok p) :
    (tallyOf db slot).AvailableUsers.len = (tallyOf db slot).AvailableCount ∧
    (tallyOf db slot).UnavailableUsers.len = (tallyOf db slot).UnavailableCount := by
  rw [tallyOf_of_rows db slot rows hr]
  simp only [Slice.len, Slice.toList_ofAppends]
  rw [usersOf_length db _ fun a ha => hp a (List.mem_of_mem_filter ha),
    usersOf_length db _ fun a ha => hp a (List.mem_of_mem_filter ha)]
  exact ⟨rfl, rfl⟩

theorem foldl_digits_ge (cs : List Char) (n : Nat) :
    n ≤ cs.foldl (fun n c => n * 10 + (c.toNat - 48)) n := by
  induction cs generalizing n with
  | nil => exact le_refl n
  | cons c cs ih =>
    simp only [List.foldl_cons]
    exact le_trans (by omega) (ih (n * 10 + (c.toNat - 48)))

/-- The digit loop answers a number exactly when every character is a digit and the value
read stays within 32 bits; the number is that value. -/
theorem parseDigits_ok_iff (cs : List Char) (n m : Nat) (hn : n ≤ maxUint32) :
    parseDigits cs n = .ok m ↔
      (∀ c ∈ cs, c.isDigit = true) ∧
      cs.foldl (fun n c => n * 10 + (c.toNat - 48)) n = m ∧ m ≤ maxUint32 := by
  induction cs generalizing n with
  | nil =>
    simp only [parseDigits, Except.ok.injEq, List.not_mem_nil, false_implies, implies_true,
      List.foldl_nil, true_and]
    constructor
    · rintro rfl; exact ⟨rfl, hn⟩
    · rintro ⟨rfl, _⟩; rfl
  | cons c cs ih =>
    unfold parseDigits
    by_cases hc : c.isDigit = true
    · simp only [hc, if_true, List.mem_cons, forall_eq_or_imp, true_and, List.foldl_cons]
      by_cases hbig : n * 10 + (c.toNat - 48) > maxUint32
      · simp only [hbig, if_true]
        constructor
        · intro h; cases h
        · rintro ⟨_, hval, hm⟩
          have := foldl_digits_ge cs (n * 10 + (c.toNat - 48))
          omega
      · simp only [hbig, if_false]
        exact ih (n * 10 + (c.toNat - 48)) (by omega)
    · simp only [hc, List.mem_cons, forall_eq_or_imp]
      constructor
      · intro h; cases h
      · rintro ⟨⟨hbad, _⟩, _⟩; exact absurd hbad (by simp)

theorem maxUint32_eq : maxUint32 = 2 ^ 32 - 1 := by
  norm_num [maxUint32]

/-- The call `ParseUint(s, 10, 32)` answers a number exactly for the accepted id strings,
and the number is their decimal value. -/
theorem ParseUint_ok_iff (s : String) (m : Nat) :
    ParseUint s = .ok m ↔ ValidID s ∧ decimalValue s.toList = m := by
  unfold ParseUint ValidID decimalValue
  cases hs : s.toList with
  | nil => simp
  | cons c cs =>
    simp only [List.isEmpty_cons, Bool.false_eq_true, if_false, ne_eq, not_false_eq_true,
      true_and, reduceCtorEq]
    rw [parseDigits_ok_iff (c :: cs) 0 m (by simp [maxUint32]), maxUint32_eq]
    constructor
    · rintro ⟨h1, h2, h3⟩
      exact ⟨⟨h1, by rw [h2]; exact h3⟩, h2⟩
    · rintro ⟨⟨h1, h3⟩, h2⟩
      exact ⟨h1, h2, by rw [← h2]; exact h3⟩

theorem ParseUint_of_valid (s : String) (h : ValidID s) :
    ParseUint s = .ok (decimalValue s.toList) :=
  (ParseUint_ok_iff s _).2 ⟨h, rfl⟩

theorem ParseUint_of_invalid (s : String) (h : ¬ValidID s) : ∃ err, ParseUint s = .error err := by
  cases hp : ParseUint s with
  | error err => exact ⟨err, rfl⟩
  | ok m => exact absurd ((ParseUint_ok_iff s m).1 hp).1 h

/-- The conversion to `uint` keeps the value of an accepted id. -/
theorem toUint_of_valid (s : String) (h : ValidID s) :
    toUint (decimalValue s.toList) = decimalValue s.toList := by
  have h3 := h.2.2
  unfold toUint
  apply Nat.mod_eq_of_lt
  have : (2 : Nat) ^ 32 - 1 < 2 ^ 64 := by norm_num
  omega

theorem GetRecommendations_of_valid (h : Handler) (r : Request)
    (hid : ValidID (r.pathVar "id")) :
    h.GetRecommendations r =
      match h.Repo.GetTimeSlotRecommendations r.id with
      | (_, some err) =>
        (respondWithError 500 err.message, [RepoCall.GetTimeSlotRecommendations r.id])
      | (recommendations, none) =>
        (respondWithJSON 200 (Payload.recommendations recommendations),
          [RepoCall.GetTimeSlotRecommendations r.id]) := by
  unfold Handler.GetRecommendations
  rw [ParseUint_of_valid _ hid]
  simp only [toUint_of_valid _ hid]
  rfl

/-- The body of a successful `GetRecommendations` for an event with at least one slot, all
of whose recommendations `json.Marshal` renders: an array with one object per retrieved
slot, in order. -/
theorem recommendations_body_of_slots (db : DB) (rest : Repository) (r : Request)
    (slots : List TimeSlot) (hid : ValidID (r.pathVar "id"))
    (hok : (GetTimeSlotRecommendations db r.id).1.2 = none)
    (hs : db.slotsOf r.id = .ok slots) (hne : slots ≠ [])
    (hrender : ∀ s ∈ slots, (tallyOf db s).renders = true) :
    (Handler.GetRecommendations ⟨PostgresRepository db rest⟩ r).1 =
      { status := 200, contentType := some "application/json",
        body := some (Json.arr (slots.map fun s => (tallyOf db s).toJSON)) } := by
  rw [GetRecommendations_of_valid _ _ hid]
  have hslice : (GetTimeSlotRecommendations db r.id).1.1 = Slice.mk (slots.map (tallyOf db)) := by
    rw [result_slice_of_ok db r.id (firstFailure_of_ok db r.id hok),
      slotsRetrieved_of_ok db r.id slots hs]
    cases slots with
    | nil => exact absurd rfl hne
    | cons s rest => exact Slice.ofAppends_cons _ _
  have hpair : (GetTimeSlotRecommendations db r.id).1 =
      (Slice.mk (slots.map (tallyOf db)), none) := by
    rw [← hslice, ← hok]
  have hall : (Slice.mk (slots.map (tallyOf db))).toList.all TimeSlotRecommendation.renders
      = true := by
    rw [Slice.toList_mk, List.all_eq_true]
    intro x hx
    obtain ⟨s, hmem, rfl⟩ := List.mem_map.1 hx
    exact hrender s hmem
  simp only [PostgresRepository, hpair, respondWithJSON_recommendations _ _ hall, sliceJSON_mk,
    List.map_map]
  rfl

/-- The body of a successful `GetRecommendations` for an event without slots is `null`. -/
theorem recommendations_body_without_slots (db : DB) (rest : Repository) (r : Request)
    (hid : ValidID (r.pathVar "id")) (hs : db.slotsOf r.id = .ok []) :
    (Handler.GetRecommendations ⟨PostgresRepository db rest⟩ r).1 =
      { status := 200, contentType := some "application/json", body := some Json.null } := by
  rw [GetRecommendations_of_valid _ _ hid]
  have hpair : (GetTimeSlotRecommendations db r.id).1 = (Slice.nil, none) := by
    simp [GetTimeSlotRecommendations, DB.FindTimeSlots, hs, slotLoop]
  simp only [PostgresRepository, hpair, respondWithJSON_recommendations _ Slice.nil rfl,
    sliceJSON_nil]

theorem SubmitAvailability_of_valid (h : Handler) (r : Request) (a : Availability)
    (hid : ValidID (r.pathVar "id")) (hbody : r.body.availability = .ok a) :
    (h.SubmitAvailability r).2 = [RepoCall.CreateAvailability { a with ID := r.id }] := by
  unfold Handler.SubmitAvailability
  rw [ParseUint_of_valid _ hid]
  simp only [toUint_of_valid _ hid, hbody]
  cases hrepo : h.Repo.CreateAvailability { a with ID := decimalValue (r.pathVar "id").toList } with
  | mk a1 err => cases err <;> rfl

end HandlerLemmas

section RoundTrip

theorem map_char_toList (l : List Char) :
    (l.map GoRune.char).map (fun r =>
      match r with
      | GoRune.char c => c
      | GoRune.invalid _ => Char.ofNat 65533) = l := by
  induction l with
  | nil => rfl
  | cons c cs ih => rw [List.map_cons, List.map_cons, ih]

/-- Reading back the text that was written for a text gives the text. -/
theorem GoString.toText_ofText (s : String) : (GoString.ofText s).toText = s := by
  unfold GoString.ofText GoString.toText
  rw [map_char_toList]
  rfl

theorem valid_runes_map (l : List GoRune)
    (h : l.all (fun r =>
      match r with
      | GoRune.char _ => true
      | GoRune.invalid _ => false) = true) :
    (l.map fun r =>
      match r with
      | GoRune.char c => c
      | GoRune.invalid _ => Char.ofNat 65533).map GoRune.char = l := by
  induction l with
  | nil => rfl
  | cons r rs ih =>
    rw [List.all_cons, Bool.and_eq_true] at h
    rw [List.map_cons, List.map_cons, ih h.2]
    cases r with
    | char c => rfl
    | invalid b => exact absurd h.1 Bool.false_ne_true

/-- Reading back the text that was written for a valid Go string gives the string. -/
theorem GoString.ofText_toText (s : GoString) (h : s.valid = true) :
    GoString.ofText s.toText = s := by
  cases s with
  | mk runes =>
    unfold GoString.ofText GoString.toText
    simp only [GoString.mk.injEq]
    exact valid_runes_map runes h

theorem decodeUint_num (n old : Nat) (h : n < 2 ^ 64) :
    decodeUint (Json.num n) old = .ok n := by
  have h2 : (n : Int) < 2 ^ 64 := by exact_mod_cast h
  simp only [decodeUint]
  rw [if_pos ⟨Int.ofNat_nonneg n, h2⟩, Int.toNat_ofNat]

theorem decodeInt_num (n old : Int) (h1 : -(2 ^ 63) ≤ n) (h2 : n < 2 ^ 63) :
    decodeInt (Json.num n) old = .ok n := by
  simp only [decodeInt]
  rw [if_pos ⟨h1, h2⟩]

theorem timeSlot_setField_id (s : TimeSlot) (v : Json) :
    TimeSlot.setField s "id" v = (decodeUint v s.ID).map fun n => { s with ID := n } := by
  exact id rfl

theorem timeSlot_setField_event_id (s : TimeSlot) (v : Json) :
    TimeSlot.setField s "event_id" v =
      (decodeUint v s.EventID).map fun n => { s with EventID := n } := by
  exact id rfl

theorem timeSlot_setField_start_time (s : TimeSlot) (v : Json) :
    TimeSlot.setField s "start_time" v =
      (decodeTime v s.StartTime).map fun t => { s with StartTime := t } := by
  exact id rfl

theorem timeSlot_setField_end_time (s : TimeSlot) (v : Json) :
    TimeSlot.setField s "end_time" v =
      (decodeTime v s.EndTime).map fun t => { s with EndTime := t } := by
  exact id rfl

theorem timeSlot_setField_created_at (s : TimeSlot) (v : Json) :
    TimeSlot.setField s "created_at" v =
      (decodeTime v s.CreatedAt).map fun t => { s with CreatedAt := t } := by
  exact id rfl

theorem timeSlot_setField_updated_at (s : TimeSlot) (v : Json) :
    TimeSlot.setField s "updated_at" v =
      (decodeTime v s.UpdatedAt).map fun t => { s with UpdatedAt := t } := by
  exact id rfl

theorem decodeFields_cons_ok {α : Type} (set : α → String → Json → Except GoError α)
    (key : String) (v : Json) (rest : List (String × Json)) (x x1 : α)
    (h : set x key v = .ok x1) :
    decodeFields set ((key, v) :: rest) x = decodeFields set rest x1 := by
  rw [decodeFields, h]

theorem decodeFields_nil {α : Type} (set : α → String → Json → Except GoError α) (x : α) :
    decodeFields set [] x = .ok x := by
  rw [decodeFields]

theorem decodeStruct_obj {α : Type} (set : α → String → Json → Except GoError α)
    (fields : List (String × Json)) (x : α) :
    decodeStruct set (Json.obj fields) x = decodeFields set fields x := by
  rw [decodeStruct]

theorem decodeTime_time (t old : GoTime) (h : timeRenders t = true) :
    decodeTime (Json.time t) old = .ok t := by
  rw [decodeTime, if_pos h]

theorem decodeString_str (t : String) (old : GoString) :
    decodeString (Json.str t) old = .ok (GoString.ofText t) := by
  rw [decodeString]

theorem Except.map_ok {ε α β : Type} (f : α → β) (x : α) :
    Except.map f (Except.ok x : Except ε α) = .ok (f x) := by
  exact id rfl

theorem timeSlot_set_id (s : TimeSlot) (n : Nat) (h : n < 2 ^ 64) :
    TimeSlot.setField s "id" (Json.num n) = .ok { s with ID := n } := by
  rw [timeSlot_setField_id, decodeUint_num _ _ h, Except.map_ok]

theorem timeSlot_set_event_id (s : TimeSlot) (n : Nat) (h : n < 2 ^ 64) :
    TimeSlot.setField s "event_id" (Json.num n) = .ok { s with EventID := n } := by
  rw [timeSlot_setField_event_id, decodeUint_num _ _ h, Except.map_ok]

theorem timeSlot_set_start_time (s : TimeSlot) (t : GoTime) (h : timeRenders t = true) :
    TimeSlot.setField s "start_time" (Json.time t) = .ok { s with StartTime := t } := by
  rw [timeSlot_setField_start_time, decodeTime_time _ _ h, Except.map_ok]

theorem timeSlot_set_end_time (s : TimeSlot) (t : GoTime) (h : timeRenders t = true) :
    TimeSlot.setField s "end_time" (Json.time t) = .ok { s with EndTime := t } := by
  rw [timeSlot_setField_end_time, decodeTime_time _ _ h, Except.map_ok]

theorem timeSlot_set_created_at (s : TimeSlot) (t : GoTime) (h : timeRenders t = true) :
    TimeSlot.setField s "created_at" (Json.time t) = .ok { s with CreatedAt := t } := by
  rw [timeSlot_setField_created_at, decodeTime_time _ _ h, Except.map_ok]

theorem timeSlot_set_updated_at (s : TimeSlot) (t : GoTime) (h : timeRenders t = true) :
    TimeSlot.setField s "updated_at" (Json.time t) = .ok { s with UpdatedAt := t } := by
  rw [timeSlot_setField_updated_at, decodeTime_time _ _ h, Except.map_ok]

theorem timeSlot_renders_iff (s : TimeSlot) :
    s.renders = true ↔
      timeRenders s.StartTime = true ∧ timeRenders s.EndTime = true ∧
      timeRenders s.CreatedAt = true ∧ timeRenders s.UpdatedAt = true := by
  rw [TimeSlot.renders, Bool.and_eq_true, Bool.and_eq_true, Bool.and_eq_true]
  tauto

theorem event_renders_iff (e : Event) :
    e.renders = true ↔
      timeRenders e.CreatedAt = true ∧ timeRenders e.UpdatedAt = true ∧
      ∀ s ∈ e.TimeSlots.toList, s.renders = true := by
  rw [Event.renders, Bool.and_eq_true, Bool.and_eq_true, List.all_eq_true]
  tauto

/-- Encoding a time slot whose times render and decoding the result gives the slot back, up
to `DeletedAt`. -/
theorem timeSlot_decode_toJSON (s : TimeSlot) (h : s.InRange) (hr : s.renders = true) :
    decodeStruct TimeSlot.setField s.toJSON TimeSlot.zero = .ok s.decoded := by
  obtain ⟨h1, h2⟩ := h
  obtain ⟨r1, r2, r3, r4⟩ := (timeSlot_renders_iff s).1 hr
  rw [TimeSlot.toJSON, decodeStruct_obj,
    decodeFields_cons_ok _ _ _ _ _ _ (timeSlot_set_id _ _ h1),
    decodeFields_cons_ok _ _ _ _ _ _ (timeSlot_set_event_id _ _ h2),
    decodeFields_cons_ok _ _ _ _ _ _ (timeSlot_set_start_time _ _ r1),
    decodeFields_cons_ok _ _ _ _ _ _ (timeSlot_set_end_time _ _ r2),
    decodeFields_cons_ok _ _ _ _ _ _ (timeSlot_set_created_at _ _ r3),
    decodeFields_cons_ok _ _ _ _ _ _ (timeSlot_set_updated_at _ _ r4), decodeFields_nil]
  exact id rfl

theorem decodeElems_cons_ok {α : Type} (dec : Json → Except GoError α) (v : Json)
    (rest : List Json) (x : α) (xs : List α) (h1 : dec v = .ok x)
    (h2 : decodeElems dec rest = .ok xs) :
    decodeElems dec (v :: rest) = .ok (x :: xs) := by
  rw [decodeElems, h1, h2]

theorem decodeElems_timeSlots (slots : List TimeSlot) (h : ∀ s ∈ slots, s.InRange)
    (hr : ∀ s ∈ slots, s.renders = true) :
    decodeElems (fun e => decodeStruct TimeSlot.setField e TimeSlot.zero)
        (slots.map TimeSlot.toJSON) = .ok (slots.map TimeSlot.decoded) := by
  induction slots with
  | nil => exact id rfl
  | cons s rest ih =>
    exact decodeElems_cons_ok _ _ _ _ _
      (timeSlot_decode_toJSON s (h s (List.mem_cons_self s rest))
        (hr s (List.mem_cons_self s rest)))
      (ih (fun x hx => h x (List.mem_cons_of_mem s hx))
        (fun x hx => hr x (List.mem_cons_of_mem s hx)))

theorem event_setField_id (e : Event) (v : Json) :
    Event.setField e "id" v = (decodeUint v e.ID).map fun n => { e with ID := n } := by
  exact id rfl

theorem event_setField_title (e : Event) (v : Json) :
    Event.setField e "title" v = (decodeString v e.Title).map fun t => { e with Title := t } :=
  by exact id rfl

theorem event_setField_description (e : Event) (v : Json) :
    Event.setField e "description" v =
      (decodeString v e.Description).map fun t => { e with Description := t } := by
  exact id rfl

theorem event_setField_organizer_id (e : Event) (v : Json) :
    Event.setField e "organizer_id" v =
      (decodeUint v e.OrganizerId).map fun n => { e with OrganizerId := n } := by
  exact id rfl

theorem event_setField_duration (e : Event) (v : Json) :
    Event.setField e "duration" v =
      (decodeInt v e.Duration).map fun n => { e with Duration := n } := by
  exact id rfl

theorem event_setField_created_at (e : Event) (v : Json) :
    Event.setField e "created_at" v =
      (decodeTime v e.CreatedAt).map fun t => { e with CreatedAt := t } := by
  exact id rfl

theorem event_setField_updated_at (e : Event) (v : Json) :
    Event.setField e "updated_at" v =
      (decodeTime v e.UpdatedAt).map fun t => { e with UpdatedAt := t } := by
  exact id rfl

theorem event_setField_time_slots (e : Event) (v : Json) :
    Event.setField e "time_slots" v =
      (decodeTimeSlots v).map fun slots => { e with TimeSlots := slots } := by
  exact id rfl

theorem event_set_id (e : Event) (n : Nat) (h : n < 2 ^ 64) :
    Event.setField e "id" (Json.num n) = .ok { e with ID := n } := by
  rw [event_setField_id, decodeUint_num _ _ h, Except.map_ok]

theorem event_set_title (e : Event) (t : String) :
    Event.setField e "title" (Json.str t) = .ok { e with Title := GoString.ofText t } := by
  rw [event_setField_title, decodeString_str, Except.map_ok]

theorem event_set_description (e : Event) (t : String) :
    Event.setField e "description" (Json.str t) =
      .ok { e with Description := GoString.ofText t } := by
  rw [event_setField_description, decodeString_str, Except.map_ok]

theorem event_set_organizer_id (e : Event) (n : Nat) (h : n < 2 ^ 64) :
    Event.setField e "organizer_id" (Json.num n) = .ok { e with OrganizerId := n } := by
  rw [event_setField_organizer_id, decodeUint_num _ _ h, Except.map_ok]

theorem event_set_duration (e : Event) (n : Int) (h1 : -(2 ^ 63) ≤ n) (h2 : n < 2 ^ 63) :
    Event.setField e "duration" (Json.num n) = .ok { e with Duration := n } := by
  rw [event_setField_duration, decodeInt_num _ _ h1 h2, Except.map_ok]

theorem event_set_created_at (e : Event) (t : GoTime) (h : timeRenders t = true) :
    Event.setField e "created_at" (Json.time t) = .ok { e with CreatedAt := t } := by
  rw [event_setField_created_at, decodeTime_time _ _ h, Except.map_ok]

theorem event_set_updated_at (e : Event) (t : GoTime) (h : timeRenders t = true) :
    Event.setField e "updated_at" (Json.time t) = .ok { e with UpdatedAt := t } := by
  rw [event_setField_updated_at, decodeTime_time _ _ h, Except.map_ok]

theorem event_set_time_slots (e : Event) (slots : List TimeSlot)
    (h : ∀ s ∈ slots, s.InRange) (hr : ∀ s ∈ slots, s.renders = true) :
    Event.setField e "time_slots" (Json.arr (slots.map TimeSlot.toJSON)) =
      .ok { e with TimeSlots := Slice.mk (slots.map TimeSlot.decoded) } := by
  rw [event_setField_time_slots, decodeTimeSlots, decodeElems_timeSlots slots h hr,
    Except.map_ok, Except.map_ok]

/-- The fields of an event that every JSON object of an event has, decoded one by one. -/
theorem event_decode_fixed_fields (e : Event) (h : e.InRange) (hr : e.renders = true)
    (more : List (String × Json)) :
    decodeFields Event.setField
        ([("id", Json.num e.ID), ("title", Json.str e.Title.toText),
          ("description", Json.str e.Description.toText),
          ("organizer_id", Json.num e.OrganizerId),
          ("duration", Json.num e.Duration), ("created_at", Json.time e.CreatedAt),
          ("updated_at", Json.time e.UpdatedAt)] ++ more) Event.zero =
      decodeFields Event.setField more
        { e with
          Title := GoString.ofText e.Title.toText
          Description := GoString.ofText e.Description.toText
          DeletedAt := none
          TimeSlots := Slice.nil } := by
  obtain ⟨h1, h2, h3, h4, _⟩ := h
  obtain ⟨r1, r2, _⟩ := (event_renders_iff e).1 hr
  rw [List.cons_append, List.cons_append, List.cons_append, List.cons_append,
    List.cons_append, List.cons_append, List.cons_append, List.nil_append,
    decodeFields_cons_ok _ _ _ _ _ _ (event_set_id _ _ h1),
    decodeFields_cons_ok _ _ _ _ _ _ (event_set_title _ _),
    decodeFields_cons_ok _ _ _ _ _ _ (event_set_description _ _),
    decodeFields_cons_ok _ _ _ _ _ _ (event_set_organizer_id _ _ h2),
    decodeFields_cons_ok _ _ _ _ _ _ (event_set_duration _ _ h3 h4),
    decodeFields_cons_ok _ _ _ _ _ _ (event_set_created_at _ _ r1),
    decodeFields_cons_ok _ _ _ _ _ _ (event_set_updated_at _ _ r2)]
  exact id rfl

/-- Encoding an event whose times render and decoding the result gives the event back, up to
the bytes of its strings that are not valid UTF-8, `DeletedAt` and the nil-ness of an empty
`TimeSlots`. -/
theorem event_decode_toJSON (e : Event) (h : e.InRange) (hr : e.renders = true) :
    decodeBody Event.setField Event.zero (some e.toJSON) = .ok e.decoded := by
  have h5 := h.2.2.2.2
  have r3 := ((event_renders_iff e).1 hr).2.2
  rw [decodeBody, Event.toJSON, decodeStruct_obj, event_decode_fixed_fields e h hr,
    omitEmptySlice, Event.decoded]
  cases hslots : e.TimeSlots.toList with
  | nil =>
    rw [List.isEmpty_nil, if_pos rfl, if_pos rfl, decodeFields_nil]
  | cons s rest =>
    rw [List.isEmpty_cons, if_neg Bool.false_ne_true, if_neg Bool.false_ne_true,
      decodeFields_cons_ok _ _ _ _ _ _
        (event_set_time_slots _ (s :: rest) (by rw [← hslots]; exact h5)
          (by rw [← hslots]; exact r3)),
      decodeFields_nil]

theorem GetEvent_of_valid (h : Handler) (r : Request) (hid : ValidID (r.pathVar "id")) :
    h.GetEvent r =
      match h.Repo.GetEvent r.id with
      | .error err => (respondWithError 500 err.message, [RepoCall.GetEvent r.id])
      | .ok event => (respondWithJSON 200 (Payload.event event), [RepoCall.GetEvent r.id]) := by
  unfold Handler.GetEvent
  rw [ParseUint_of_valid _ hid]
  simp only [toUint_of_valid _ hid]
  rfl

end RoundTrip

section Guards

theorem respondWithError_ne (code : Nat) (m1 m2 : String) (h : m1 ≠ m2) :
    respondWithError code m1 ≠ respondWithError code m2 := by
  intro heq
  rw [respondWithError_eq, respondWithError_eq] at heq
  simp only [Response.mk.injEq, Option.some.injEq, Json.obj.injEq, List.cons.injEq,
    Prod.mk.injEq, Json.str.injEq, true_and, and_true] at heq
  exact h heq

theorem UpdateEvent_of_valid (h : Handler) (r : Request) (hid : ValidID (r.pathVar "id")) :
    h.UpdateEvent r =
      match r.body.event with
      | .error _ => (respondWithError 400 "Invalid request payload", [])
      | .ok event =>
        match h.Repo.UpdateEvent { event with ID := r.id } with
        | (_, some err) =>
          (respondWithError 500 err.message, [RepoCall.UpdateEvent { event with ID := r.id }])
        | (event1, none) =>
          (respondWithJSON 200 (Payload.event event1),
            [RepoCall.UpdateEvent { event with ID := r.id }]) := by
  unfold Handler.UpdateEvent
  rw [ParseUint_of_valid _ hid]
  simp only [toUint_of_valid _ hid]
  rfl

theorem DeleteEvent_of_valid (h : Handler) (r : Request) (hid : ValidID (r.pathVar "id")) :
    h.DeleteEvent r =
      match h.Repo.DeleteEvent r.id with
      | some err => (respondWithError 500 err.message, [RepoCall.DeleteEvent r.id])
      | none =>
        ({ status := 204, contentType := none, body := none }, [RepoCall.DeleteEvent r.id]) := by
  unfold Handler.DeleteEvent
  rw [ParseUint_of_valid _ hid]
  simp only [toUint_of_valid _ hid]
  rfl

theorem AddTimeSlot_of_valid (h : Handler) (r : Request) (hid : ValidID (r.pathVar "id")) :
    h.AddTimeSlot r =
      match r.body.timeSlot with
      | .error _ => (respondWithError 400 "Invalid request payload", [])
      | .ok timeSlot =>
        match h.Repo.CreateTimeSlot { timeSlot with EventID := r.id } with
        | (_, some err) =>
          (respondWithError 500 err.message,
            [RepoCall.CreateTimeSlot { timeSlot with EventID := r.id }])
        | (timeSlot1, none) =>
          (respondWithJSON 201 (Payload.timeSlot timeSlot1),
            [RepoCall.CreateTimeSlot { timeSlot with EventID := r.id }]) := by
  unfold Handler.AddTimeSlot
  rw [ParseUint_of_valid _ hid]
  simp only [toUint_of_valid _ hid]
  rfl

theorem GetTimeSlots_of_valid (h : Handler) (r : Request) (hid : ValidID (r.pathVar "id")) :
    h.GetTimeSlots r =
      match h.Repo.GetTimeSlots r.id with
      | (_, some err) => (respondWithError 500 err.message, [RepoCall.GetTimeSlots r.id])
      | (timeSlots, none) =>
        (respondWithJSON 200 (Payload.timeSlots timeSlots), [RepoCall.GetTimeSlots r.id]) := by
  unfold Handler.GetTimeSlots
  rw [ParseUint_of_valid _ hid]
  simp only [toUint_of_valid _ hid]
  rfl

theorem SubmitAvailability_eq_of_valid (h : Handler) (r : Request)
    (hid : ValidID (r.pathVar "id")) :
    h.SubmitAvailability r =
      match r.body.availability with
      | .error _ => (respondWithError 400 "Invalid request payload", [])
      | .ok availability =>
        match h.Repo.CreateAvailability { availability with ID := r.id } with
        | (_, some err) =>
          (respondWithError 500 err.message,
            [RepoCall.CreateAvailability { availability with ID := r.id }])
        | (availability1, none) =>
          (respondWithJSON 201 (Payload.availability availability1),
            [RepoCall.CreateAvailability { availability with ID := r.id }]) := by
  unfold Handler.SubmitAvailability
  rw [ParseUint_of_valid _ hid]
  simp only [toUint_of_valid _ hid]
  rfl

theorem GetParticipant_of_valid (h : Handler) (r : Request) (hid : ValidID (r.pathVar "id")) :
    h.GetParticipant r =
      match h.Repo.GetParticipant r.id with
      | .error err => (respondWithError 500 err.message, [RepoCall.GetParticipant r.id])
      | .ok participant =>
        (respondWithJSON 200 (Payload.participant participant),
          [RepoCall.GetParticipant r.id]) := by
  unfold Handler.GetParticipant
  rw [ParseUint_of_valid _ hid]
  simp only [toUint_of_valid _ hid]
  rfl

/-- A handler that reads no body guards its id, given what it does in the two cases. -/
theorem guardsID_of_cases (H : Handler → Request → Response × List RepoCall)
    (message : String) (call : Nat → RepoCall)
    (hvalid : ∀ h r, ValidID (r.pathVar "id") → (H h r).2 = [call r.id])
    (hinvalid : ∀ h r, ¬ValidID (r.pathVar "id") →
      H h r = (respondWithError 400 message, [])) :
    GuardsID H message call := by
  intro h r
  by_cases hid : ValidID (r.pathVar "id")
  · refine ⟨⟨fun hresp => ?_, fun hn => absurd hid hn⟩, fun _ => hvalid h r hid⟩
    have hcalls := hvalid h r hid
    rw [hresp.2] at hcalls
    exact absurd hcalls (List.cons_ne_nil _ _).symm
  · have hrej := hinvalid h r hid
    exact ⟨⟨fun _ => hid, fun _ => by rw [hrej]; exact ⟨rfl, rfl⟩⟩, fun hv => absurd hv hid⟩

/-- A handler that decodes a body guards its id, given what it does in the three cases. -/
theorem guardsIDWithBody_of_cases {α : Type}
    (H : Handler → Request → Response × List RepoCall) (message : String)
    (decoded : Body → Except GoError α) (call : α → Nat → RepoCall)
    (hmessage : "Invalid request payload" ≠ message)
    (hok : ∀ h r x, ValidID (r.pathVar "id") → decoded r.body = .ok x →
      (H h r).2 = [call x r.id])
    (hbad : ∀ h r err, ValidID (r.pathVar "id") → decoded r.body = .error err →
      H h r = (respondWithError 400 "Invalid request payload", []))
    (hinvalid : ∀ h r, ¬ValidID (r.pathVar "id") →
      H h r = (respondWithError 400 message, [])) :
    GuardsIDWithBody H message decoded call := by
  intro h r
  by_cases hid : ValidID (r.pathVar "id")
  · refine ⟨⟨fun hresp => ?_, fun hn => absurd hid hn⟩,
      fun _ => ⟨fun x hx => hok h r x hid hx, fun err herr => hbad h r err hid herr⟩⟩
    cases hdec : decoded r.body with
    | error err =>
      have hrej := hbad h r err hid hdec
      rw [hrej] at hresp
      exact absurd hresp.1 (respondWithError_ne 400 _ _ hmessage)
    | ok x =>
      have hcalls := hok h r x hid hdec
      rw [hresp.2] at hcalls
      exact absurd hcalls (List.cons_ne_nil _ _).symm
  · have hrej := hinvalid h r hid
    exact ⟨⟨fun _ => hid, fun _ => by rw [hrej]; exact ⟨rfl, rfl⟩⟩, fun hv => absurd hv hid⟩

theorem GetEvent_guards : GuardsID Handler.GetEvent "Invalid event ID" RepoCall.GetEvent := by
  apply guardsID_of_cases
  · intro h r hid
    rw [GetEvent_of_valid h r hid]
    cases h.Repo.GetEvent r.id <;> rfl
  · intro h r hid
    obtain ⟨err, herr⟩ := ParseUint_of_invalid _ hid
    unfold Handler.GetEvent
    rw [herr]

theorem DeleteEvent_guards :
    GuardsID Handler.DeleteEvent "Invalid event ID" RepoCall.DeleteEvent := by
  apply guardsID_of_cases
  · intro h r hid
    rw [DeleteEvent_of_valid h r hid]
    cases h.Repo.DeleteEvent r.id <;> rfl
  · intro h r hid
    obtain ⟨err, herr⟩ := ParseUint_of_invalid _ hid
    unfold Handler.DeleteEvent
    rw [herr]

theorem GetTimeSlots_guards :
    GuardsID Handler.GetTimeSlots "Invalid event ID" RepoCall.GetTimeSlots := by
  apply guardsID_of_cases
  · intro h r hid
    rw [GetTimeSlots_of_valid h r hid]
    rcases h.Repo.GetTimeSlots r.id with ⟨x, _ | err⟩ <;> rfl
  · intro h r hid
    obtain ⟨err, herr⟩ := ParseUint_of_invalid _ hid
    unfold Handler.GetTimeSlots
    rw [herr]

theorem GetRecommendations_guards :
    GuardsID Handler.GetRecommendations "Invalid event ID"
      RepoCall.GetTimeSlotRecommendations := by
  apply guardsID_of_cases
  · intro h r hid
    rw [GetRecommendations_of_valid h r hid]
    rcases h.Repo.GetTimeSlotRecommendations r.id with ⟨x, _ | err⟩ <;> rfl
  · intro h r hid
    obtain ⟨err, herr⟩ := ParseUint_of_invalid _ hid
    unfold Handler.GetRecommendations
    rw [herr]

theorem GetParticipant_guards :
    GuardsID Handler.GetParticipant "Invalid participant ID" RepoCall.GetParticipant := by
  apply guardsID_of_cases
  · intro h r hid
    rw [GetParticipant_of_valid h r hid]
    cases h.Repo.GetParticipant r.id <;> rfl
  · intro h r hid
    obtain ⟨err, herr⟩ := ParseUint_of_invalid _ hid
    unfold Handler.GetParticipant
    rw [herr]

theorem UpdateEvent_guards :
    GuardsIDWithBody Handler.UpdateEvent "Invalid event ID" Body.event
      (fun event id => RepoCall.UpdateEvent { event with ID := id }) := by
  apply guardsIDWithBody_of_cases
  · decide
  · intro h r x hid hdec
    rw [UpdateEvent_of_valid h r hid]
    simp only [hdec]
    rcases hrepo : h.Repo.UpdateEvent { x with ID := r.id } with ⟨y, _ | err⟩ <;> rfl
  · intro h r err hid hdec
    rw [UpdateEvent_of_valid h r hid, hdec]
  · intro h r hid
    obtain ⟨err, herr⟩ := ParseUint_of_invalid _ hid
    unfold Handler.UpdateEvent
    rw [herr]

theorem AddTimeSlot_guards :
    GuardsIDWithBody Handler.AddTimeSlot "Invalid event ID" Body.timeSlot
      (fun slot id => RepoCall.CreateTimeSlot { slot with EventID := id }) := by
  apply guardsIDWithBody_of_cases
  · decide
  · intro h r x hid hdec
    rw [AddTimeSlot_of_valid h r hid]
    simp only [hdec]
    rcases hrepo : h.Repo.CreateTimeSlot { x with EventID := r.id } with ⟨y, _ | err⟩ <;> rfl
  · intro h r err hid hdec
    rw [AddTimeSlot_of_valid h r hid, hdec]
  · intro h r hid
    obtain ⟨err, herr⟩ := ParseUint_of_invalid _ hid
    unfold Handler.AddTimeSlot
    rw [herr]

theorem SubmitAvailability_guards :
    GuardsIDWithBody Handler.SubmitAvailability "Invalid event ID" Body.availability
      (fun availability id => RepoCall.CreateAvailability { availability with ID := id }) := by
  apply guardsIDWithBody_of_cases
  · decide
  · intro h r x hid hdec
    rw [SubmitAvailability_eq_of_valid h r hid]
    simp only [hdec]
    rcases hrepo : h.Repo.CreateAvailability { x with ID := r.id } with ⟨y, _ | err⟩ <;> rfl
  · intro h r err hid hdec
    rw [SubmitAvailability_eq_of_valid h r hid, hdec]
  · intro h r hid
    obtain ⟨err, herr⟩ := ParseUint_of_invalid _ hid
    unfold Handler.SubmitAvailability
    rw [herr]

end Guards

/-! ## Properties of the handlers -/

/-- C18: on a successful run of `GetTimeSlotRecommendations`, every returned recommendation
has as many `AvailableUsers` as `AvailableCount` says and as many `UnavailableUsers` as
`UnavailableCount` says. -/
theorem users_match_counts (db : DB) (eventID : Nat)
    (hok : (GetTimeSlotRecommendations db eventID).1.2 = none) :
    ∀ r ∈ (GetTimeSlotRecommendations db eventID).1.1.toList,
      r.AvailableUsers.len = r.AvailableCount ∧ r.UnavailableUsers.len = r.UnavailableCount ∧
      (r.AvailableUsers.toList.length : Int) = r.AvailableCount ∧
      (r.UnavailableUsers.toList.length : Int) = r.UnavailableCount := by
  obtain ⟨slots, hs, hall⟩ :=
    (traversal_ok_iff db eventID).1 (firstFailure_of_ok db eventID hok)
  intro r hr
  rw [result_toList_of_ok db eventID slots hok hs] at hr
  obtain ⟨slot, hmem, rfl⟩ := List.mem_map.1 hr
  obtain ⟨rows, hrows, hp⟩ := hall slot hmem
  obtain ⟨h1, h2⟩ := tallyOf_lengths db slot rows hrows hp
  exact ⟨h1, h2, h1, h2⟩

/-- C18 at the scenario tables. -/
theorem users_match_counts_witness :
    (GetTimeSlotRecommendations scenarioDB 1).1.2 = none ∧
    ∀ r ∈ (GetTimeSlotRecommendations scenarioDB 1).1.1.toList,
      r.AvailableUsers.len = r.AvailableCount ∧ r.UnavailableUsers.len = r.UnavailableCount ∧
      (r.AvailableUsers.toList.length : Int) = r.AvailableCount ∧
      (r.UnavailableUsers.toList.length : Int) = r.UnavailableCount :=
  ⟨by decide, users_match_counts scenarioDB 1 (by decide)⟩

/-- C12: the JSON object of a `TimeSlotRecommendation` has the key `available_users` exactly
when `AvailableUsers` has an element and the key `unavailable_users` exactly when
`UnavailableUsers` has one; the keys `time_slot`, `available_count` and `unavailable_count`
are always there, the counts with their values, 0 included. -/
theorem recommendation_keys (r : TimeSlotRecommendation) :
    ("available_users" ∈ r.toJSON.keys ↔ r.AvailableUsers.toList ≠ []) ∧
    ("unavailable_users" ∈ r.toJSON.keys ↔ r.UnavailableUsers.toList ≠ []) ∧
    "time_slot" ∈ r.toJSON.keys ∧ "available_count" ∈ r.toJSON.keys ∧
    "unavailable_count" ∈ r.toJSON.keys ∧
    r.toJSON.field "time_slot" = some r.TimeSlot.toJSON ∧
    r.toJSON.field "available_count" = some (Json.num r.AvailableCount) ∧
    r.toJSON.field "unavailable_count" = some (Json.num r.UnavailableCount) := by
  rw [TimeSlotRecommendation.keys_toJSON]
  refine ⟨?_, ?_, by simp, by simp, by simp, rfl, rfl, rfl⟩
  · cases h1 : r.AvailableUsers.toList with
    | nil => cases h2 : r.UnavailableUsers.toList <;> simp
    | cons x xs => simp
  · cases h2 : r.UnavailableUsers.toList with
    | nil => cases h1 : r.AvailableUsers.toList <;> simp
    | cons x xs => simp

/-- C13: when the path id is accepted and `GetTimeSlotRecommendations` returns an error, the
`GetRecommendations` handler answers with status 500 and the JSON object whose only field is
`error` with the error's message; whatever slice came with the error is not in the body. -/
theorem recommendations_error_response (h : Handler) (r : Request)
    (recs : Slice TimeSlotRecommendation) (err : GoError)
    (hid : ValidID (r.pathVar "id"))
    (herr : h.Repo.GetTimeSlotRecommendations r.id = (recs, some err)) :
    (h.GetRecommendations r).1 =
      { status := 500, contentType := some "application/json",
        body := some (Json.obj [("error", Json.str err.message)]) } ∧
    (h.GetRecommendations r).2 = [RepoCall.GetTimeSlotRecommendations r.id] := by
  rw [GetRecommendations_of_valid _ _ hid, herr]
  exact ⟨rfl, rfl⟩

/-- C13 at the tables with the dangling row, where the embedded aggregation fails. -/
theorem recommendations_error_response_witness :
    (Handler.GetRecommendations ⟨PostgresRepository danglingDB mockRepository⟩
        (requestFor "1" none)).1 =
      { status := 500, contentType := some "application/json",
        body := some (Json.obj [("error", Json.str "record not found")]) } ∧
    (Handler.GetRecommendations ⟨PostgresRepository danglingDB mockRepository⟩
        (requestFor "1" none)).2 = [RepoCall.GetTimeSlotRecommendations 1] :=
  recommendations_error_response ⟨PostgresRepository danglingDB mockRepository⟩
    (requestFor "1" none) Slice.nil ErrRecordNotFound (by decide) rfl

/-- C11 at an event without time slots (event 5 of the scenario tables): the aggregation
succeeds, the handler answers with status 200, and the body is `null`, which is no JSON
array. -/
theorem recommendations_null_without_slots :
    (GetTimeSlotRecommendations scenarioDB 5).1 = (Slice.nil, none) ∧
    (Handler.GetRecommendations ⟨PostgresRepository scenarioDB mockRepository⟩
        (requestFor "5" none)).1 =
      { status := 200, contentType := some "application/json", body := some Json.null } ∧
    Json.null.isArray = false :=
  ⟨by decide, rfl, rfl⟩

/-- C14 at two submissions for event 7: the records handed to the repository carry what the
bodies say about participant, slot and flag, and both carry the identifier 7, the event id
of the path. -/
theorem submissions_share_identifier :
    (Handler.SubmitAvailability ⟨mockRepository⟩ submissionOne).2 =
      [RepoCall.CreateAvailability ⟨7, 1, 3, true, 0, 0, none⟩] ∧
    (Handler.SubmitAvailability ⟨mockRepository⟩ submissionTwo).2 =
      [RepoCall.CreateAvailability ⟨7, 2, 3, true, 0, 0, none⟩] :=
  ⟨by decide, by decide⟩

/-- C15 refuted at two events: for the event of `TestGetEvent` with a creation time in the
year 10000 `json.Marshal` fails and the `GetEvent` handler answers 500 "Internal Server
Error"; for the same event with a title that holds a byte that is not valid UTF-8 the
handler answers 200 with a body that decodes to an event with another title, the byte
replaced by U+FFFD. -/
theorem get_event_not_round_trip :
    ValidID ((requestFor "1" none).pathVar "id") ∧
    farFutureRepository.GetEvent (requestFor "1" none).id = .ok farFutureEvent ∧
    farFutureEvent.InRange ∧
    (Handler.GetEvent ⟨farFutureRepository⟩ (requestFor "1" none)).1 =
      { status := 500, contentType := none,
        body := some (Json.obj [("error", Json.str "Internal Server Error")]) } ∧
    brokenTitleRepository.GetEvent (requestFor "1" none).id = .ok brokenTitleEvent ∧
    brokenTitleEvent.InRange ∧
    (Handler.GetEvent ⟨brokenTitleRepository⟩ (requestFor "1" none)).1 =
      { status := 200, contentType := some "application/json",
        body := some brokenTitleEvent.toJSON } ∧
    decodeBody Event.setField Event.zero (some brokenTitleEvent.toJSON) =
      .ok { brokenTitleEvent with
            Title := ⟨[GoRune.char 'T', GoRune.char (Char.ofNat 65533)]⟩ } ∧
    brokenTitleEvent.Title = ⟨[GoRune.char 'T', GoRune.invalid 255]⟩ :=
  ⟨by decide, rfl, by simp [Event.InRange, farFutureEvent, sampleEvent, Slice.toList], rfl,
    rfl, by simp [Event.InRange, brokenTitleEvent, sampleEvent, Slice.toList], rfl, rfl, rfl⟩

/-- C15, amended: when the path id is accepted and the repository returns an event (a value
of the Go type) whose times `json.Marshal` renders, the `GetEvent` handler answers with
status 200 and a JSON body that decodes, as in `TestGetEvent`, to an event with the same
`ID` and with the title read back from the text written for it, which is the same `Title`
when the title is valid UTF-8.  When one of the times does not render, the handler answers
500 "Internal Server Error". -/
theorem get_event_round_trip (h : Handler) (r : Request) (event : Event)
    (hid : ValidID (r.pathVar "id")) (hrepo : h.Repo.GetEvent r.id = .ok event)
    (hrange : event.InRange) :
    (event.renders = true →
      (h.GetEvent r).1.status = 200 ∧
      ∃ body response, (h.GetEvent r).1.body = some body ∧
        decodeBody Event.setField Event.zero (some body) = .ok response ∧
        response.ID = event.ID ∧ response.Title = GoString.ofText event.Title.toText ∧
        (event.Title.valid = true → response.Title = event.Title)) ∧
    (event.renders = false →
      (h.GetEvent r).1 =
        { status := 500, contentType := none,
          body := some (Json.obj [("error", Json.str "Internal Server Error")]) }) := by
  have hresp : (h.GetEvent r).1 = respondWithJSON 200 (Payload.event event) := by
    rw [GetEvent_of_valid h r hid, hrepo]
  rw [hresp]
  constructor
  · intro hrender
    rw [respondWithJSON_of_renders 200 (Payload.event event) hrender]
    exact ⟨rfl, event.toJSON, event.decoded, rfl, event_decode_toJSON event hrange hrender,
      rfl, rfl, fun hvalid => GoString.ofText_toText event.Title hvalid⟩
  · intro hrender
    rw [respondWithJSON_of_not_renders 200 (Payload.event event) hrender]

/-- C15, amended, at the request and the event of `TestGetEvent`. -/
theorem get_event_round_trip_witness :
    sampleEvent.renders = true ∧
    (Handler.GetEvent ⟨mockRepository⟩ (requestFor "1" none)).1.status = 200 ∧
    ∃ body response,
      (Handler.GetEvent ⟨mockRepository⟩ (requestFor "1" none)).1.body = some body ∧
      decodeBody Event.setField Event.zero (some body) = .ok response ∧
      response.ID = sampleEvent.ID ∧
      response.Title = GoString.ofText sampleEvent.Title.toText ∧
      (sampleEvent.Title.valid = true → response.Title = sampleEvent.Title) :=
  ⟨rfl,
    (get_event_round_trip ⟨mockRepository⟩ (requestFor "1" none) sampleEvent (by decide) rfl
      (by simp [Event.InRange, sampleEvent, Slice.toList])).1 rfl⟩

/-- C17 refuted at `UpdateEvent` with the accepted id 1 and a body that holds no JSON value:
the id is not passed to the repository, the handler answers 400 "Invalid request payload"
without a repository call. -/
theorem accepted_id_without_call :
    ValidID ((requestFor "1" none).pathVar "id") ∧
    Handler.UpdateEvent ⟨mockRepository⟩ (requestFor "1" none) =
      (respondWithError 400 "Invalid request payload", []) ∧
    (Handler.UpdateEvent ⟨mockRepository⟩ (requestFor "1" none)).2 = [] :=
  ⟨by decide, rfl, rfl⟩

/-- C17, amended: each of the eight handlers with a path id answers 400 with its "Invalid
... ID" error and calls no repository method if and only if the id string is not a non-empty
sequence of ASCII decimal digits with a value of at most `2^32 - 1`.  For an accepted id,
the five handlers that read no body make exactly one repository call, with exactly the
number the string stands for; the three handlers that decode a body make exactly one call
when the body decodes, with the decoded struct and that number in its `ID` (`UpdateEvent`,
`SubmitAvailability`) or `EventID` (`AddTimeSlot`), and answer 400 "Invalid request
payload" without a call when it does not. -/
theorem path_id_guard :
    GuardsID Handler.GetEvent "Invalid event ID" RepoCall.GetEvent ∧
    GuardsIDWithBody Handler.UpdateEvent "Invalid event ID" Body.event
      (fun event id => RepoCall.UpdateEvent { event with ID := id }) ∧
    GuardsID Handler.DeleteEvent "Invalid event ID" RepoCall.DeleteEvent ∧
    GuardsIDWithBody Handler.AddTimeSlot "Invalid event ID" Body.timeSlot
      (fun slot id => RepoCall.CreateTimeSlot { slot with EventID := id }) ∧
    GuardsID Handler.GetTimeSlots "Invalid event ID" RepoCall.GetTimeSlots ∧
    GuardsIDWithBody Handler.SubmitAvailability "Invalid event ID" Body.availability
      (fun availability id => RepoCall.CreateAvailability { availability with ID := id }) ∧
    GuardsID Handler.GetRecommendations "Invalid event ID"
      RepoCall.GetTimeSlotRecommendations ∧
    GuardsID Handler.GetParticipant "Invalid participant ID" RepoCall.GetParticipant :=
  ⟨GetEvent_guards, UpdateEvent_guards, DeleteEvent_guards, AddTimeSlot_guards,
    GetTimeSlots_guards, SubmitAvailability_guards, GetRecommendations_guards,
    GetParticipant_guards⟩

/-- C16 refuted at `GetTimeSlots`: the id 1 is accepted and the repository call succeeds
with one slot whose end is in the year 10000, `json.Marshal` fails, and the handler answers
500 "Internal Server Error" where the claim has 200. -/
theorem success_status_not_rendered :
    ValidID ((requestFor "1" none).pathVar "id") ∧
    farFutureRepository.GetTimeSlots (requestFor "1" none).id =
      (Slice.mk [farFutureSlot], none) ∧
    Handler.GetTimeSlots ⟨farFutureRepository⟩ (requestFor "1" none) =
      ({ status := 500, contentType := none,
         body := some (Json.obj [("error", Json.str "Internal Server Error")]) },
        [RepoCall.GetTimeSlots 1]) :=
  ⟨by decide, rfl, rfl⟩

/-- C16, amended: when the path id (if the handler has one) is accepted, the body (if the
handler reads one) decodes and the repository call succeeds, the handler has made exactly
that one repository call and answers with its success status if `json.Marshal` renders the
payload of the response, 201 for the four creating handlers and 200 for the five reading or
updating ones, and with 500 if it does not; `DeleteEvent`, which writes no payload, answers
204 without a body. -/
theorem success_statuses (h : Handler) :
    (∀ r event event1, r.body.event = .ok event →
      h.Repo.CreateEvent event = (event1, none) →
      (h.CreateEvent r).1.status = (if (Payload.event event1).renders then 201 else 500) ∧
      (h.CreateEvent r).2 = [RepoCall.CreateEvent event]) ∧
    (∀ r event, ValidID (r.pathVar "id") → h.Repo.GetEvent r.id = .ok event →
      (h.GetEvent r).1.status = (if (Payload.event event).renders then 200 else 500) ∧
      (h.GetEvent r).2 = [RepoCall.GetEvent r.id]) ∧
    (∀ r event event1, ValidID (r.pathVar "id") → r.body.event = .ok event →
      h.Repo.UpdateEvent { event with ID := r.id } = (event1, none) →
      (h.UpdateEvent r).1.status = (if (Payload.event event1).renders then 200 else 500) ∧
      (h.UpdateEvent r).2 = [RepoCall.UpdateEvent { event with ID := r.id }]) ∧
    (∀ r, ValidID (r.pathVar "id") → h.Repo.DeleteEvent r.id = none →
      (h.DeleteEvent r).1.status = 204 ∧ (h.DeleteEvent r).1.body = none ∧
      (h.DeleteEvent r).2 = [RepoCall.DeleteEvent r.id]) ∧
    (∀ r slot slot1, ValidID (r.pathVar "id") → r.body.timeSlot = .ok slot →
      h.Repo.CreateTimeSlot { slot with EventID := r.id } = (slot1, none) →
      (h.AddTimeSlot r).1.status = (if (Payload.timeSlot slot1).renders then 201 else 500) ∧
      (h.AddTimeSlot r).2 = [RepoCall.CreateTimeSlot { slot with EventID := r.id }]) ∧
    (∀ r slots, ValidID (r.pathVar "id") → h.Repo.GetTimeSlots r.id = (slots, none) →
      (h.GetTimeSlots r).1.status = (if (Payload.timeSlots slots).renders then 200 else 500) ∧
      (h.GetTimeSlots r).2 = [RepoCall.GetTimeSlots r.id]) ∧
    (∀ r a a1, ValidID (r.pathVar "id") → r.body.availability = .ok a →
      h.Repo.CreateAvailability { a with ID := r.id } = (a1, none) →
      (h.SubmitAvailability r).1.status =
        (if (Payload.availability a1).renders then 201 else 500) ∧
      (h.SubmitAvailability r).2 = [RepoCall.CreateAvailability { a with ID := r.id }]) ∧
    (∀ r recs, ValidID (r.pathVar "id") →
      h.Repo.GetTimeSlotRecommendations r.id = (recs, none) →
      (h.GetRecommendations r).1.status =
        (if (Payload.recommendations recs).renders then 200 else 500) ∧
      (h.GetRecommendations r).2 = [RepoCall.GetTimeSlotRecommendations r.id]) ∧
    (∀ r p p1, r.body.participant = .ok p → h.Repo.CreateParticipant p = (p1, none) →
      (h.CreateParticipant r).1.status =
        (if (Payload.participant p1).renders then 201 else 500) ∧
      (h.CreateParticipant r).2 = [RepoCall.CreateParticipant p]) ∧
    (∀ r p, ValidID (r.pathVar "id") → h.Repo.GetParticipant r.id = .ok p →
      (h.GetParticipant r).1.status =
        (if (Payload.participant p).renders then 200 else 500) ∧
      (h.GetParticipant r).2 = [RepoCall.GetParticipant r.id]) := by
  refine ⟨?_, ?_, ?_, ?_, ?_, ?_, ?_, ?_, ?_, ?_⟩
  · intro r event event1 hbody hrepo
    simp only [Handler.CreateEvent, hbody, hrepo, respondWithJSON_status, and_self]
  · intro r event hid hrepo
    simp only [GetEvent_of_valid h r hid, hrepo, respondWithJSON_status, and_self]
  · intro r event event1 hid hbody hrepo
    simp only [UpdateEvent_of_valid h r hid, hbody, hrepo, respondWithJSON_status, and_self]
  · intro r hid hrepo
    simp only [DeleteEvent_of_valid h r hid, hrepo, and_self]
  · intro r slot slot1 hid hbody hrepo
    simp only [AddTimeSlot_of_valid h r hid, hbody, hrepo, respondWithJSON_status, and_self]
  · intro r slots hid hrepo
    simp only [GetTimeSlots_of_valid h r hid, hrepo, respondWithJSON_status, and_self]
  · intro r a a1 hid hbody hrepo
    simp only [SubmitAvailability_eq_of_valid h r hid, hbody, hrepo, respondWithJSON_status,
      and_self]
  · intro r recs hid hrepo
    simp only [GetRecommendations_of_valid h r hid, hrepo, respondWithJSON_status, and_self]
  · intro r p p1 hbody hrepo
    simp only [Handler.CreateParticipant, hbody, hrepo, respondWithJSON_status, and_self]
  · intro r p hid hrepo
    simp only [GetParticipant_of_valid h r hid, hrepo, respondWithJSON_status, and_self]

/-- C16, amended, at a repository in the manner of the tests' mock, one request for each of
the ten handlers; every payload renders. -/
theorem success_statuses_witness :
    ((Handler.CreateEvent ⟨mockRepository⟩ ⟨[], Body.ofJSON (some updateBody)⟩).1.status =
        201 ∧
      (Handler.CreateEvent ⟨mockRepository⟩ ⟨[], Body.ofJSON (some updateBody)⟩).2 =
        [RepoCall.CreateEvent updateDecoded]) ∧
    ((Handler.GetEvent ⟨mockRepository⟩ (requestFor "1" none)).1.status = 200 ∧
      (Handler.GetEvent ⟨mockRepository⟩ (requestFor "1" none)).2 = [RepoCall.GetEvent 1]) ∧
    ((Handler.DeleteEvent ⟨mockRepository⟩ (requestFor "1" none)).1.status = 204 ∧
      (Handler.DeleteEvent ⟨mockRepository⟩ (requestFor "1" none)).1.body = none ∧
      (Handler.DeleteEvent ⟨mockRepository⟩ (requestFor "1" none)).2 =
        [RepoCall.DeleteEvent 1]) ∧
    ((Handler.AddTimeSlot ⟨mockRepository⟩ (requestFor "1" (some slotBody))).1.status = 201 ∧
      (Handler.AddTimeSlot ⟨mockRepository⟩ (requestFor "1" (some slotBody))).2 =
        [RepoCall.CreateTimeSlot ⟨0, 1, 32400, 36000, 0, 0, none⟩]) ∧
    ((Handler.CreateParticipant ⟨mockRepository⟩
          ⟨[], Body.ofJSON (some participantBody)⟩).1.status = 201 ∧
      (Handler.CreateParticipant ⟨mockRepository⟩
          ⟨[], Body.ofJSON (some participantBody)⟩).2 =
        [RepoCall.CreateParticipant ⟨0, "A", "a@example.com", 0, 0, none⟩]) ∧
    ((Handler.UpdateEvent ⟨mockRepository⟩ (requestFor "1" (some updateBody))).1.status = 200 ∧
      (Handler.UpdateEvent ⟨mockRepository⟩ (requestFor "1" (some updateBody))).2 =
        [RepoCall.UpdateEvent { updateDecoded with ID := 1 }]) ∧
    ((Handler.GetTimeSlots ⟨mockRepository⟩ (requestFor "1" none)).1.status = 200 ∧
      (Handler.GetTimeSlots ⟨mockRepository⟩ (requestFor "1" none)).2 =
        [RepoCall.GetTimeSlots 1]) ∧
    ((Handler.SubmitAvailability ⟨mockRepository⟩ submissionOne).1.status = 201 ∧
      (Handler.SubmitAvailability ⟨mockRepository⟩ submissionOne).2 =
        [RepoCall.CreateAvailability ⟨7, 1, 3, true, 0, 0, none⟩]) ∧
    ((Handler.GetRecommendations ⟨mockRepository⟩ (requestFor "1" none)).1.status = 200 ∧
      (Handler.GetRecommendations ⟨mockRepository⟩ (requestFor "1" none)).2 =
        [RepoCall.GetTimeSlotRecommendations 1]) ∧
    ((Handler.GetParticipant ⟨mockRepository⟩ (requestFor "1" none)).1.status = 200 ∧
      (Handler.GetParticipant ⟨mockRepository⟩ (requestFor "1" none)).2 =
        [RepoCall.GetParticipant 1]) :=
  ⟨(success_statuses ⟨mockRepository⟩).1 ⟨[], Body.ofJSON (some updateBody)⟩ updateDecoded
      updateDecoded rfl rfl,
    (success_statuses ⟨mockRepository⟩).2.1 (requestFor "1" none) sampleEvent (by decide) rfl,
    (success_statuses ⟨mockRepository⟩).2.2.2.1 (requestFor "1" none) (by decide) rfl,
    (success_statuses ⟨mockRepository⟩).2.2.2.2.1 (requestFor "1" (some slotBody))
      ⟨0, 0, 32400, 36000, 0, 0, none⟩ ⟨0, 1, 32400, 36000, 0, 0, none⟩ (by decide) rfl rfl,
    (success_statuses ⟨mockRepository⟩).2.2.2.2.2.2.2.2.1
      ⟨[], Body.ofJSON (some participantBody)⟩
      ⟨0, "A", "a@example.com", 0, 0, none⟩ ⟨0, "A", "a@example.com", 0, 0, none⟩ rfl rfl,
    (success_statuses ⟨mockRepository⟩).2.2.1 (requestFor "1" (some updateBody))
      updateDecoded { updateDecoded with ID := 1 } (by decide) rfl rfl,
    (success_statuses ⟨mockRepository⟩).2.2.2.2.2.1 (requestFor "1" none) (Slice.mk [slotS1])
      (by decide) rfl,
    (success_statuses ⟨mockRepository⟩).2.2.2.2.2.2.1 submissionOne
      ⟨0, 1, 3, true, 0, 0, none⟩ ⟨7, 1, 3, true, 0, 0, none⟩ (by decide) rfl rfl,
    (success_statuses ⟨mockRepository⟩).2.2.2.2.2.2.2.1 (requestFor "1" none)
      (Slice.mk [⟨slotS1, 3, 1, Slice.nil, Slice.nil⟩]) (by decide) rfl,
    (success_statuses ⟨mockRepository⟩).2.2.2.2.2.2.2.2.2 (requestFor "1" none) participantA
      (by decide) rfl⟩

/-- C19 refuted at a repository that writes to the struct it is handed: for the request of
`TestUpdateEvent` with the path id 1 the event handed over has the id 1 and the decoded
fields, but the event echoed in the 200 response has the id 99 and the time of the update
that the repository has written. -/
theorem update_event_echo_rewritten :
    ValidID ((requestFor "1" (some updateBody)).pathVar "id") ∧
    (requestFor "1" (some updateBody)).body.event = .ok updateDecoded ∧
    (Handler.UpdateEvent ⟨writingRepository⟩ (requestFor "1" (some updateBody))).2 =
      [RepoCall.UpdateEvent { updateDecoded with ID := 1 }] ∧
    (Handler.UpdateEvent ⟨writingRepository⟩ (requestFor "1" (some updateBody))).1 =
      { status := 200, contentType := some "application/json",
        body := some ({ updateDecoded with ID := 99, UpdatedAt := 86400 } : Event).toJSON } ∧
    ({ updateDecoded with ID := 99, UpdatedAt := 86400 } : Event).toJSON.field "id" =
      some (Json.num 99) ∧
    ({ updateDecoded with ID := 99, UpdatedAt := 86400 } : Event).toJSON.field "updated_at" =
      some (Json.time 86400) ∧
    updateDecoded.UpdatedAt = 0 :=
  ⟨by decide, rfl, rfl, rfl, rfl, rfl, rfl⟩

/-- C19, amended: for an `UpdateEvent` request with an accepted path id and a body that
decodes, the event handed to the repository's `UpdateEvent` has the path id as its `ID`,
whatever id the body holds, and every other field as decoded from the body.  The response
encodes the same struct variable after the call, the event as the repository has left it:
with status 200 when its times render (500 "Internal Server Error" when they do not), and
with the fields of the event handed over for a repository that has not written to it. -/
theorem update_event_uses_path_id (h : Handler) (r : Request) (event : Event)
    (hid : ValidID (r.pathVar "id")) (hbody : r.body.event = .ok event) :
    ∃ passed, (h.UpdateEvent r).2 = [RepoCall.UpdateEvent passed] ∧
      passed = { event with ID := r.id } ∧
      passed.ID = r.id ∧ passed.Title = event.Title ∧ passed.Description = event.Description ∧
      passed.OrganizerId = event.OrganizerId ∧ passed.Duration = event.Duration ∧
      passed.CreatedAt = event.CreatedAt ∧ passed.UpdatedAt = event.UpdatedAt ∧
      passed.DeletedAt = event.DeletedAt ∧ passed.TimeSlots = event.TimeSlots ∧
      (∀ left, h.Repo.UpdateEvent passed = (left, none) →
        (h.UpdateEvent r).1 = respondWithJSON 200 (Payload.event left) ∧
        (left.renders = true →
          (h.UpdateEvent r).1 =
            { status := 200, contentType := some "application/json",
              body := some left.toJSON }) ∧
        (left.renders = false → (h.UpdateEvent r).1.status = 500)) ∧
      (∀ left err, h.Repo.UpdateEvent passed = (left, some err) →
        (h.UpdateEvent r).1 = respondWithError 500 err.message) := by
  refine ⟨{ event with ID := r.id }, ?_, rfl, rfl, rfl, rfl, rfl, rfl, rfl, rfl, rfl, rfl,
    ?_, ?_⟩
  · rw [UpdateEvent_of_valid h r hid]
    simp only [hbody]
    rcases hrepo : h.Repo.UpdateEvent { event with ID := r.id } with ⟨x, _ | err⟩ <;> rfl
  · intro left hrepo
    have hresp : (h.UpdateEvent r).1 = respondWithJSON 200 (Payload.event left) := by
      rw [UpdateEvent_of_valid h r hid]
      simp only [hbody, hrepo]
    refine ⟨hresp, fun hrender => ?_, fun hrender => ?_⟩
    · rw [hresp]
      exact respondWithJSON_of_renders 200 (Payload.event left) hrender
    · rw [hresp, respondWithJSON_of_not_renders 200 (Payload.event left) hrender]
  · intro left err hrepo
    rw [UpdateEvent_of_valid h r hid]
    simp only [hbody, hrepo]

/-- C19, amended, at the request of `TestUpdateEvent` with the id 5 in the body and 1 in the
path, for the mock repository, which does not write to the struct: the event handed over
and echoed has the id 1. -/
theorem update_event_uses_path_id_witness :
    (Handler.UpdateEvent ⟨mockRepository⟩ (requestFor "1" (some updateBody))).2 =
      [RepoCall.UpdateEvent { updateDecoded with ID := 1 }] ∧
    (Handler.UpdateEvent ⟨mockRepository⟩ (requestFor "1" (some updateBody))).1 =
      { status := 200, contentType := some "application/json",
        body := some ({ updateDecoded with ID := 1 } : Event).toJSON } ∧
    ∃ passed,
      (Handler.UpdateEvent ⟨mockRepository⟩ (requestFor "1" (some updateBody))).2 =
        [RepoCall.UpdateEvent passed] ∧
      passed.ID = 1 ∧ passed.Title = updateDecoded.Title :=
  ⟨by decide, rfl,
    (update_event_uses_path_id ⟨mockRepository⟩ (requestFor "1" (some updateBody))
      updateDecoded (by decide) rfl).elim
      fun passed hp => ⟨passed, hp.1, hp.2.2.1, hp.2.2.2.1⟩⟩

end Scheduler
